import Mathlib

/-!
# Verification of the canvas engine's spatial index, interaction machine and helpers

This file gives a shallow embedding, in Lean 4, of the core of the
`my-canvas` drawing engine: the geometry kernel (`point.ts`, `geometry.ts`,
`transform.ts`), the shape classes (`Rectangle.ts`, `Path.ts`), the quadtree
spatial index (`SpatialIndex.ts`), the element manager (`ElementManager.ts`),
the interaction manager (`InteractionManager.ts`) and the wheel-zoom handler
of `CanvasEngine.ts`.  Numbers are embedded as rationals (the source uses JS
doubles but only ever adds, subtracts, multiplies, divides and compares them
in the fragments treated here, so the rational embedding is exact on every
concrete input whose coordinates are representable).  Class instances are
embedded as immutable values and mutation as explicit state passing.

Theorems about the specification's claims follow the definitions.
-/

namespace MyCanvas

/-! ## Geometry kernel (packages/math: point.ts, geometry.ts, transform.ts) -/

/-- `Point` from `point.ts`. -/
structure Point where
  x : ℚ
  y : ℚ
deriving DecidableEq, Repr

/-- `BoundingBox` from `geometry.ts`. -/
structure BoundingBox where
  x : ℚ
  y : ℚ
  width : ℚ
  height : ℚ
deriving DecidableEq, Repr

/-- `pointInRect` from `geometry.ts`: inclusive on all four boundaries. -/
def pointInRect (p : Point) (rect : BoundingBox) : Bool :=
  decide (rect.x ≤ p.x) && decide (p.x ≤ rect.x + rect.width) &&
  decide (rect.y ≤ p.y) && decide (p.y ≤ rect.y + rect.height)

/-- `rectsIntersect` from `geometry.ts`: true unless one rectangle lies strictly
beyond the other along some axis (closed-interval semantics). -/
def rectsIntersect (a b : BoundingBox) : Bool :=
  !(decide (a.x + a.width < b.x) || decide (b.x + b.width < a.x) ||
    decide (a.y + a.height < b.y) || decide (b.y + b.height < a.y))

/-- `Transform` from `transform.ts`. -/
structure Transform where
  scaleX : ℚ
  scaleY : ℚ
  translateX : ℚ
  translateY : ℚ
deriving DecidableEq, Repr

/-- `applyTransform` from `transform.ts` (canvas space → screen space). -/
def applyTransform (point : Point) (transform : Transform) : Point :=
  { x := point.x * transform.scaleX + transform.translateX
    y := point.y * transform.scaleY + transform.translateY }

/-- `applyInverseTransform` from `transform.ts` (screen space → canvas space).
In the source, a zero scale would produce an IEEE infinity; over ℚ the
division then yields `0`.  Theorems that depend on invertibility therefore
carry non-zero-scale hypotheses. -/
def applyInverseTransform (point : Point) (transform : Transform) : Point :=
  { x := (point.x - transform.translateX) / transform.scaleX
    y := (point.y - transform.translateY) / transform.scaleY }

/-! ## Shape classes (packages/elements: Rectangle.ts, Path.ts)

Only the geometry-relevant behaviour (`id`, `getBoundingBox`, `containsPoint`)
is embedded; paint attributes other than `strokeWidth` (which enters the
geometry of `Path`) are irrelevant to every claim and are omitted from the
style record. -/

/-- The geometry-relevant part of `ElementStyle` from `types.ts`. -/
structure ElementStyle where
  strokeWidth : Option ℚ
deriving DecidableEq, Repr

/-- JS `this.style.strokeWidth || 2`: `undefined` and `0` are falsy, so both
fall back to the default `2`. -/
def ElementStyle.strokeWidthOr2 (s : ElementStyle) : ℚ :=
  match s.strokeWidth with
  | none => 2
  | some w => if w = 0 then 2 else w

/-- The `Rectangle` element class (`Rectangle.ts`). -/
structure Rectangle where
  id : String
  x : ℚ
  y : ℚ
  width : ℚ
  height : ℚ
  style : ElementStyle
  selected : Bool
deriving DecidableEq, Repr

/-- `Rectangle.getBoundingBox`. -/
def Rectangle.getBoundingBox (r : Rectangle) : BoundingBox :=
  { x := r.x, y := r.y, width := r.width, height := r.height }

/-- `Rectangle.containsPoint`. -/
def Rectangle.containsPoint (r : Rectangle) (point : Point) : Bool :=
  decide (r.x ≤ point.x) && decide (point.x ≤ r.x + r.width) &&
  decide (r.y ≤ point.y) && decide (point.y ≤ r.y + r.height)

/-- The `Path` element class (`Path.ts`).  `x`/`y` hold the centroid computed
by the constructor; they play no role in `getBoundingBox`/`containsPoint`. -/
structure PathElem where
  id : String
  points : List Point
  x : ℚ
  y : ℚ
  style : ElementStyle
  selected : Bool
deriving DecidableEq, Repr

/-- The squared distance from `point` to segment `lineStart`–`lineEnd`,
following `pointToLineDistance` in `point.ts` (which returns
`Math.sqrt(dx*dx + dy*dy)`); we keep the square, which is rational. -/
def pointToLineDistanceSq (point lineStart lineEnd : Point) : ℚ :=
  let a := point.x - lineStart.x
  let b := point.y - lineStart.y
  let c := lineEnd.x - lineStart.x
  let d := lineEnd.y - lineStart.y
  let dot := a * c + b * d
  let lenSq := c * c + d * d
  let param : ℚ := if lenSq ≠ 0 then dot / lenSq else -1
  let xx : ℚ := if param < 0 then lineStart.x
    else if 1 < param then lineEnd.x else lineStart.x + param * c
  let yy : ℚ := if param < 0 then lineStart.y
    else if 1 < param then lineEnd.y else lineStart.y + param * d
  (point.x - xx) * (point.x - xx) + (point.y - yy) * (point.y - yy)

/-- `pointToLineDistance(p, s, e) <= tol`, expressed without the square root:
for `tol ≥ 0` this is `distSq ≤ tol²`, and for `tol < 0` it is false (the
square root is non-negative).  Extensionally equal to the source comparison. -/
def segDistLE (point lineStart lineEnd : Point) (tol : ℚ) : Bool :=
  decide (0 ≤ tol) && decide (pointToLineDistanceSq point lineStart lineEnd ≤ tol * tol)

/-- `Path.getBoundingBox`: the points' envelope padded by `strokeWidth / 2`. -/
def PathElem.getBoundingBox (path : PathElem) : BoundingBox :=
  match path.points with
  | [] => { x := 0, y := 0, width := 0, height := 0 }
  | q :: qs =>
      let minX := qs.foldl (fun m r => min m r.x) q.x
      let minY := qs.foldl (fun m r => min m r.y) q.y
      let maxX := qs.foldl (fun m r => max m r.x) q.x
      let maxY := qs.foldl (fun m r => max m r.y) q.y
      let padding := path.style.strokeWidthOr2 / 2
      { x := minX - padding, y := minY - padding,
        width := maxX - minX + padding * 2, height := maxY - minY + padding * 2 }

/-- `Path.containsPoint`: the point is within tolerance
`(strokeWidth || 2) * 2` of some segment of the polyline. -/
def PathElem.containsPoint (path : PathElem) (point : Point) : Bool :=
  let tolerance := path.style.strokeWidthOr2 * 2
  (path.points.zip path.points.tail).any fun q =>
    segDistLE point q.1 q.2 tolerance

/-- The closed set of element kinds consumed polymorphically through the
`IElement` interface. -/
inductive IElem where
  | rect (r : Rectangle)
  | path (p : PathElem)
deriving DecidableEq, Repr

def IElem.id : IElem → String
  | .rect r => r.id
  | .path p => p.id

def IElem.getBoundingBox : IElem → BoundingBox
  | .rect r => r.getBoundingBox
  | .path p => p.getBoundingBox

def IElem.containsPoint : IElem → Point → Bool
  | .rect r, q => r.containsPoint q
  | .path p, q => p.containsPoint q

/-- The capability set of the `IElement` interface that the spatial index
consumes (`id`, `getBoundingBox()`, `containsPoint()`); the index is generic
over any element type providing it. -/
class Shape (α : Type) where
  id : α → String
  getBoundingBox : α → BoundingBox
  containsPoint : α → Point → Bool

instance : Shape IElem where
  id := IElem.id
  getBoundingBox := IElem.getBoundingBox
  containsPoint := IElem.containsPoint

/-! ## The quadtree (`SpatialIndex.ts`)

`QuadTreeNode.children` in the source is `QuadTreeNode[] | null`, and the
only write to it is `split()`, which always installs exactly the four
quadrant children (top-left, top-right, bottom-left, bottom-right).  The
embedding mirrors those two shapes as the constructors `leaf` (children
null) and `node` (the four children, in that order).  `elements` is kept in
both constructors, as in the source. -/

inductive QuadTreeNode (α : Type) where
  | leaf (bounds : BoundingBox) (depth : Nat) (elements : List α)
  | node (bounds : BoundingBox) (depth : Nat) (elements : List α)
      (tl tr bl br : QuadTreeNode α)
deriving DecidableEq, Repr

namespace QuadTreeNode

variable {α : Type}

/-- `maxElements` — capacity before a leaf splits. -/
def maxElements : Nat := 10

/-- `maxDepth` — depth at which leaves stop splitting. -/
def maxDepth : Nat := 5

def bounds : QuadTreeNode α → BoundingBox
  | .leaf b _ _ => b
  | .node b _ _ _ _ _ _ => b

def depth : QuadTreeNode α → Nat
  | .leaf _ d _ => d
  | .node _ d _ _ _ _ _ => d

/-- The four quadrant rectangles produced by `split()`. -/
def quadTL (b : BoundingBox) : BoundingBox :=
  { x := b.x, y := b.y, width := b.width / 2, height := b.height / 2 }

def quadTR (b : BoundingBox) : BoundingBox :=
  { x := b.x + b.width / 2, y := b.y, width := b.width / 2, height := b.height / 2 }

def quadBL (b : BoundingBox) : BoundingBox :=
  { x := b.x, y := b.y + b.height / 2, width := b.width / 2, height := b.height / 2 }

def quadBR (b : BoundingBox) : BoundingBox :=
  { x := b.x + b.width / 2, y := b.y + b.height / 2,
    width := b.width / 2, height := b.height / 2 }

/-- `split()`: the four fresh child leaves at depth `d + 1`. -/
def split (b : BoundingBox) (d : Nat) :
    QuadTreeNode α × QuadTreeNode α × QuadTreeNode α × QuadTreeNode α :=
  (.leaf (quadTL b) (d + 1) [], .leaf (quadTR b) (d + 1) [],
   .leaf (quadBL b) (d + 1) [], .leaf (quadBR b) (d + 1) [])

variable [Shape α]

/-- `insert`, with the recursion depth made explicit as fuel.  The source's
recursion descends one depth level per call (into existing children, or into
the fresh children created by `split`, which live at `depth + 1`), and the
split guard `depth < maxDepth` bounds the nesting of any tree the class ever
builds by `maxDepth + 1` levels, so fuel `maxDepth + 1` is never exhausted on
such trees (`insert` below supplies it). -/
def insertF : Nat → QuadTreeNode α → α → QuadTreeNode α
  | 0, t, _ => t
  | g + 1, .leaf b d es, e =>
      if rectsIntersect b (Shape.getBoundingBox e) then
        let es2 := es ++ [e]
        if maxElements < es2.length ∧ d < maxDepth then
          -- split, then reinsert every held element into every child
          let c0 := split b d
          let c := es2.foldl
            (fun c el =>
              (insertF g c.1 el, insertF g c.2.1 el,
               insertF g c.2.2.1 el, insertF g c.2.2.2 el))
            c0
          .node b d [] c.1 c.2.1 c.2.2.1 c.2.2.2
        else .leaf b d es2
      else .leaf b d es
  | g + 1, .node b d es tl tr bl br, e =>
      if rectsIntersect b (Shape.getBoundingBox e) then
        .node b d es (insertF g tl e) (insertF g tr e) (insertF g bl e) (insertF g br e)
      else .node b d es tl tr bl br

/-- `QuadTreeNode.insert`. -/
def insert (t : QuadTreeNode α) (e : α) : QuadTreeNode α :=
  insertF (maxDepth + 1) t e

/-- One step of the `seen`-set deduplication loop in `query`: append the
element unless its id is already among the collected results (the source's
`seen` set always holds exactly the ids of `results`). -/
def pushUnique (acc : List α) (e : α) : List α :=
  if acc.any (fun x => Shape.id x == Shape.id e) then acc else acc ++ [e]

/-- The `query` result loop: keep the first occurrence of every id. -/
def dedupById (l : List α) : List α :=
  l.foldl pushUnique []

/-- `query`: all elements whose bounds intersect the region, deduplicated by
id; subtrees whose bounds miss the region are pruned. -/
def query : QuadTreeNode α → BoundingBox → List α
  | .leaf b _ es, R =>
      if rectsIntersect b R then
        dedupById (es.filter fun e => rectsIntersect R (Shape.getBoundingBox e))
      else []
  | .node b _ _ tl tr bl br, R =>
      if rectsIntersect b R then
        dedupById (query tl R ++ query tr R ++ query bl R ++ query br R)
      else []

/-- `queryPoint`: children and leaf elements are visited in reverse order
(`for (let i = …length - 1; i >= 0; i--)`), first hit wins. -/
def queryPoint : QuadTreeNode α → Point → Option α
  | .leaf b _ es, p =>
      if pointInRect p b then es.reverse.find? (fun e => Shape.containsPoint e p)
      else none
  | .node b _ _ tl tr bl br, p =>
      if pointInRect p b then
        match queryPoint br p with
        | some r => some r
        | none =>
          match queryPoint bl p with
          | some r => some r
          | none =>
            match queryPoint tr p with
            | some r => some r
            | none => queryPoint tl p
      else none

/-- `clear`: the node reverts to an empty leaf (the source empties
`elements`, recursively clears the children and sets `children = null`). -/
def clear : QuadTreeNode α → QuadTreeNode α
  | .leaf b d _ => .leaf b d []
  | .node b d _ _ _ _ _ => .leaf b d []

variable [DecidableEq α]

/-- `remove`: prunes by the element's bounds, removes the first occurrence
(`indexOf`/`splice`) from each leaf reached, and reports whether any removal
occurred.  JS removes by reference identity; elements here are values with
decidable equality. -/
def remove : QuadTreeNode α → α → QuadTreeNode α × Bool
  | .leaf b d es, e =>
      if rectsIntersect b (Shape.getBoundingBox e) then
        if e ∈ es then (.leaf b d (es.erase e), true) else (.leaf b d es, false)
      else (.leaf b d es, false)
  | .node b d es tl tr bl br, e =>
      if rectsIntersect b (Shape.getBoundingBox e) then
        let rtl := remove tl e
        let rtr := remove tr e
        let rbl := remove bl e
        let rbr := remove br e
        (.node b d es rtl.1 rtr.1 rbl.1 rbr.1, rtl.2 || rtr.2 || rbl.2 || rbr.2)
      else (.node b d es tl tr bl br, false)

end QuadTreeNode

/-! ## `SpatialIndex` (the public wrapper class) -/

structure SpatialIndex (α : Type) where
  root : QuadTreeNode α

namespace SpatialIndex

variable {α : Type} [Shape α]

/-- The constructor `new SpatialIndex(bounds)`. -/
def create (bounds : BoundingBox) : SpatialIndex α :=
  ⟨.leaf bounds 0 []⟩

def insert (si : SpatialIndex α) (e : α) : SpatialIndex α :=
  ⟨si.root.insert e⟩

def query (si : SpatialIndex α) (bounds : BoundingBox) : List α :=
  si.root.query bounds

def queryPoint (si : SpatialIndex α) (point : Point) : Option α :=
  si.root.queryPoint point

def clear (si : SpatialIndex α) : SpatialIndex α :=
  ⟨si.root.clear⟩

variable [DecidableEq α]

/-- `SpatialIndex.remove` is declared `void`: it updates the tree and
discards the boolean computed by `QuadTreeNode.remove`. -/
def remove (si : SpatialIndex α) (e : α) : SpatialIndex α :=
  ⟨(si.root.remove e).1⟩

/-- The value a call to the `void` method `SpatialIndex.remove` evaluates to
(`undefined` in JS): there is no boolean result at this level. -/
def removeReturn (_si : SpatialIndex α) (_e : α) : Unit := ()

/-- `update` = remove then insert. -/
def update (si : SpatialIndex α) (e : α) : SpatialIndex α :=
  (si.remove e).insert e

/-- `rebuild(bounds, elements)`: fresh root, reinsert everything. -/
def rebuild (_si : SpatialIndex α) (bounds : BoundingBox) (elements : List α) :
    SpatialIndex α :=
  elements.foldl insert (create bounds)

/-- Folding `insert` over a list (insertion order matters). -/
def insertAll (si : SpatialIndex α) (elements : List α) : SpatialIndex α :=
  elements.foldl insert si

end SpatialIndex

/-- The indexed universe used by `CanvasEngine`'s constructor and `resize`. -/
def engineBounds : BoundingBox :=
  { x := -10000, y := -10000, width := 20000, height := 20000 }

/-! ## Basic geometry lemmas -/

theorem rectsIntersect_iff {a b : BoundingBox} :
    rectsIntersect a b = true ↔
      b.x ≤ a.x + a.width ∧ a.x ≤ b.x + b.width ∧
      b.y ≤ a.y + a.height ∧ a.y ≤ b.y + b.height := by
  simp [rectsIntersect, not_or, not_lt, and_assoc]

theorem pointInRect_iff {p : Point} {r : BoundingBox} :
    pointInRect p r = true ↔
      r.x ≤ p.x ∧ p.x ≤ r.x + r.width ∧ r.y ≤ p.y ∧ p.y ≤ r.y + r.height := by
  simp [pointInRect, and_assoc]

theorem rectsIntersect_comm {a b : BoundingBox} :
    rectsIntersect a b = rectsIntersect b a := by
  rw [Bool.eq_iff_iff, rectsIntersect_iff, rectsIntersect_iff]
  tauto

/-- Two rectangles sharing a point intersect. -/
theorem rectsIntersect_of_shared {p : Point} {a b : BoundingBox}
    (ha : pointInRect p a = true) (hb : pointInRect p b = true) :
    rectsIntersect a b = true := by
  rw [pointInRect_iff] at ha hb
  rw [rectsIntersect_iff]
  constructor
  · linarith [ha.1, ha.2.1, hb.1, hb.2.1]
  refine ⟨by linarith [ha.1, hb.2.1], ?_, by linarith [ha.2.2.1, hb.2.2.2]⟩
  linarith [ha.2.2.2, hb.2.2.1]

/-- `s` lies inside `b` (componentwise interval containment). -/
def rectSub (s b : BoundingBox) : Prop :=
  b.x ≤ s.x ∧ s.x + s.width ≤ b.x + b.width ∧
  b.y ≤ s.y ∧ s.y + s.height ≤ b.y + b.height

theorem rectSub_refl (b : BoundingBox) : rectSub b b := by
  refine ⟨le_refl _, le_refl _, le_refl _, le_refl _⟩

theorem rectSub_trans {a b c : BoundingBox} (h1 : rectSub a b) (h2 : rectSub b c) :
    rectSub a c := by
  obtain ⟨x1, x2, y1, y2⟩ := h1
  obtain ⟨x3, x4, y3, y4⟩ := h2
  exact ⟨by linarith, by linarith, by linarith, by linarith⟩

theorem rectsIntersect_mono {s b c : BoundingBox} (hs : rectSub s b)
    (h : rectsIntersect s c = true) : rectsIntersect b c = true := by
  obtain ⟨x1, x2, y1, y2⟩ := hs
  rw [rectsIntersect_iff] at h ⊢
  obtain ⟨h1, h2, h3, h4⟩ := h
  exact ⟨by linarith, by linarith, by linarith, by linarith⟩

theorem pointInRect_mono {p : Point} {s b : BoundingBox} (hs : rectSub s b)
    (h : pointInRect p s = true) : pointInRect p b = true := by
  obtain ⟨x1, x2, y1, y2⟩ := hs
  rw [pointInRect_iff] at h ⊢
  obtain ⟨h1, h2, h3, h4⟩ := h
  exact ⟨by linarith, by linarith, by linarith, by linarith⟩

namespace QuadTreeNode

variable {α : Type}

theorem rectSub_quadTL {b : BoundingBox} (hw : 0 ≤ b.width) (hh : 0 ≤ b.height) :
    rectSub (quadTL b) b := by
  refine ⟨le_refl _, by simp [quadTL]; linarith, le_refl _, by simp [quadTL]; linarith⟩

theorem rectSub_quadTR {b : BoundingBox} (hw : 0 ≤ b.width) (hh : 0 ≤ b.height) :
    rectSub (quadTR b) b := by
  refine ⟨by simp [quadTR]; linarith, by simp [quadTR]; linarith,
    le_refl _, by simp [quadTR]; linarith⟩

theorem rectSub_quadBL {b : BoundingBox} (hw : 0 ≤ b.width) (hh : 0 ≤ b.height) :
    rectSub (quadBL b) b := by
  refine ⟨le_refl _, by simp [quadBL]; linarith, by simp [quadBL]; linarith,
    by simp [quadBL]; linarith⟩

theorem rectSub_quadBR {b : BoundingBox} (hw : 0 ≤ b.width) (hh : 0 ≤ b.height) :
    rectSub (quadBR b) b := by
  refine ⟨by simp [quadBR]; linarith, by simp [quadBR]; linarith,
    by simp [quadBR]; linarith, by simp [quadBR]; linarith⟩

/-- The four quadrants cover the parent rectangle. -/
theorem quad_cover {p : Point} {b : BoundingBox} (hp : pointInRect p b = true) :
    pointInRect p (quadTL b) = true ∨ pointInRect p (quadTR b) = true ∨
    pointInRect p (quadBL b) = true ∨ pointInRect p (quadBR b) = true := by
  rw [pointInRect_iff] at hp
  obtain ⟨h1, h2, h3, h4⟩ := hp
  rcases le_total p.x (b.x + b.width / 2) with hx | hx <;>
    rcases le_total p.y (b.y + b.height / 2) with hy | hy
  · exact Or.inl (by rw [pointInRect_iff]; simp [quadTL]; exact ⟨h1, hx, h3, hy⟩)
  · refine Or.inr (Or.inr (Or.inl ?_))
    rw [pointInRect_iff]; simp [quadBL]
    exact ⟨h1, hx, hy, by linarith⟩
  · refine Or.inr (Or.inl ?_)
    rw [pointInRect_iff]; simp [quadTR]
    exact ⟨hx, by linarith, h3, hy⟩
  · refine Or.inr (Or.inr (Or.inr ?_))
    rw [pointInRect_iff]; simp [quadBR]
    exact ⟨hx, by linarith, hy, by linarith⟩

/-! ## Invariants -/

/-- All element references held in the subtree's nodes, in node order. -/
def elems : QuadTreeNode α → List α
  | .leaf _ _ es => es
  | .node _ _ es tl tr bl br => es ++ (elems tl ++ (elems tr ++ (elems bl ++ elems br)))

/-- Geometric well-formedness: non-degenerate bounds, depth fields consistent
with the construction, internal nodes only below `maxDepth`, children are the
four quadrants of the parent.  Every tree built by the `SpatialIndex` API
satisfies it. -/
def geomB : QuadTreeNode α → Bool
  | .leaf b d _ =>
      decide (0 ≤ b.width) && decide (0 ≤ b.height) && decide (d ≤ maxDepth)
  | .node b d _ tl tr bl br =>
      decide (0 ≤ b.width) && decide (0 ≤ b.height) && decide (d < maxDepth) &&
      (tl.bounds == quadTL b && tl.depth == d + 1) &&
      (tr.bounds == quadTR b && tr.depth == d + 1) &&
      (bl.bounds == quadBL b && bl.depth == d + 1) &&
      (br.bounds == quadBR b && br.depth == d + 1) &&
      geomB tl && geomB tr && geomB bl && geomB br

variable [Shape α] [DecidableEq α]

/-- Content characterization: each leaf holds exactly the elements of the
insertion history `S` whose bounding boxes intersect the leaf's bounds, in
insertion order; internal nodes hold nothing of their own. -/
def contentsB (S : List α) : QuadTreeNode α → Bool
  | .leaf b _ es =>
      es == S.filter (fun e => rectsIntersect b (Shape.getBoundingBox e))
  | .node _ _ es tl tr bl br =>
      (es == []) && contentsB S tl && contentsB S tr && contentsB S bl && contentsB S br

/-- The structural invariant of claim C8: an internal node holds no elements
of its own and sits strictly below the maximum depth (it was produced by a
split), and a leaf below the maximum depth holds at most `maxElements`
elements (otherwise it would have split). -/
def nodeInvB : QuadTreeNode α → Bool
  | .leaf _ d es =>
      !decide (d < maxDepth) || decide (es.length ≤ maxElements)
  | .node _ d es tl tr bl br =>
      (es == []) && decide (d < maxDepth) &&
      nodeInvB tl && nodeInvB tr && nodeInvB bl && nodeInvB br

end QuadTreeNode

/-! ## List helper lemmas -/

theorem filter_erase_of_pos {α : Type} [DecidableEq α] (P : α → Bool) (e : α)
    (hP : P e = true) : ∀ S : List α, (S.filter P).erase e = (S.erase e).filter P := by
  intro S
  induction S with
  | nil => rfl
  | cons a S ih =>
    by_cases hae : a = e
    · subst hae
      rw [List.filter_cons, if_pos hP, List.erase_cons, if_pos (by simp),
        List.erase_cons, if_pos (by simp)]
    · have hbe : ¬((a == e) = true) := by simpa using hae
      rw [List.filter_cons, List.erase_cons, if_neg hbe]
      by_cases hPa : P a = true
      · rw [if_pos hPa, List.erase_cons, if_neg hbe, List.filter_cons, if_pos hPa, ih]
      · rw [if_neg hPa, List.filter_cons, if_neg hPa, ih]

theorem erase_filter_of_neg {α : Type} [DecidableEq α] (P : α → Bool) (e : α)
    (hP : P e = false) : ∀ S : List α, (S.erase e).filter P = S.filter P := by
  intro S
  induction S with
  | nil => rfl
  | cons a S ih =>
    by_cases hae : a = e
    · subst hae
      rw [List.erase_cons, if_pos (by simp), List.filter_cons, if_neg (by simp [hP])]
    · rw [List.erase_cons, if_neg (by simpa using hae), List.filter_cons,
        List.filter_cons, ih]

theorem reverse_find?_eq_filter_getLast? {α : Type} (P : α → Bool) :
    ∀ l : List α, l.reverse.find? P = (l.filter P).getLast? := by
  intro l
  induction l using List.reverseRecOn with
  | nil => rfl
  | append_singleton l a ih =>
    rw [List.reverse_append, List.filter_append]
    by_cases hPa : P a = true
    · simp only [List.reverse_singleton, List.singleton_append]
      rw [List.find?_cons_of_pos _ hPa]
      have : List.filter P [a] = [a] := by simp [hPa]
      rw [this, List.getLast?_concat]
    · have hPa' : P a = false := by simpa using hPa
      simp only [List.reverse_singleton, List.singleton_append]
      rw [List.find?_cons_of_neg _ (by simp [hPa']), ih]
      have : List.filter P [a] = [] := by simp [hPa']
      rw [this, List.append_nil]

namespace QuadTreeNode

variable {α : Type} [Shape α]

theorem pushUnique_self_mem {acc : List α} {e : α} (he : e ∈ acc) :
    pushUnique acc e = acc := by
  rw [pushUnique, if_pos]
  exact List.any_eq_true.2 ⟨e, he, by simp⟩

/-- Membership in the deduplication fold, assuming ids are injective on a
universe `U` containing all candidates. -/
theorem mem_foldl_pushUnique {U : List α}
    (hU : ∀ x ∈ U, ∀ y ∈ U, Shape.id x = Shape.id y → x = y) :
    ∀ (l acc : List α), (∀ x ∈ l, x ∈ U) → (∀ x ∈ acc, x ∈ U) →
      ∀ x, (x ∈ l.foldl pushUnique acc ↔ x ∈ acc ∨ x ∈ l) := by
  intro l
  induction l with
  | nil => simp
  | cons e l ih =>
    intro acc hl hacc x
    have he : e ∈ U := hl e (by simp)
    have hmem : ∀ y, y ∈ pushUnique acc e ↔ y ∈ acc ∨ y = e := by
      intro y
      rw [pushUnique]
      split
      · rename_i hany
        obtain ⟨z, hz, hid⟩ := List.any_eq_true.1 hany
        have : z = e := hU z (hacc z hz) e he (by simpa using hid)
        subst this
        constructor
        · exact fun h => Or.inl h
        · rintro (h | h)
          · exact h
          · exact h ▸ hz
      · simp
    have hacc2 : ∀ x ∈ pushUnique acc e, x ∈ U := by
      intro x hx
      rcases (hmem x).1 hx with h | h
      · exact hacc x h
      · exact h ▸ he
    rw [List.foldl_cons, ih (pushUnique acc e) (fun x hx => hl x (by simp [hx]))
      hacc2 x, hmem x]
    simp only [List.mem_cons]
    tauto

theorem foldl_pushUnique_subset :
    ∀ (l acc : List α) (x : α), x ∈ l.foldl pushUnique acc → x ∈ acc ∨ x ∈ l := by
  intro l
  induction l with
  | nil => simp
  | cons e l ih =>
    intro acc x hx
    rcases ih (pushUnique acc e) x hx with h | h
    · rw [pushUnique] at h
      split at h
      · exact Or.inl h
      · rcases List.mem_append.1 h with h | h
        · exact Or.inl h
        · simp at h
          simp [h]
    · simp [h]

theorem foldl_pushUnique_nodup {U : List α}
    (hU : ∀ x ∈ U, ∀ y ∈ U, Shape.id x = Shape.id y → x = y) :
    ∀ (l acc : List α), (∀ x ∈ l, x ∈ U) → (∀ x ∈ acc, x ∈ U) → acc.Nodup →
      (l.foldl pushUnique acc).Nodup := by
  intro l
  induction l with
  | nil => intro acc _ _ h; simpa using h
  | cons e l ih =>
    intro acc hl hacc hnd
    have he : e ∈ U := hl e (by simp)
    refine ih (pushUnique acc e) (fun x hx => hl x (by simp [hx])) ?_ ?_
    · intro x hx
      rw [pushUnique] at hx
      split at hx
      · exact hacc x hx
      · rcases List.mem_append.1 hx with h | h
        · exact hacc x h
        · simp at h
          exact h ▸ he
    · rw [pushUnique]
      split
      · exact hnd
      · rename_i hany
        refine List.nodup_append.2 ⟨hnd, List.nodup_singleton e, ?_⟩
        intro x hx
        simp only [List.mem_singleton]
        rintro rfl
        exact hany (List.any_eq_true.2 ⟨x, hx, by simp⟩)

theorem mem_dedupById {U : List α}
    (hU : ∀ x ∈ U, ∀ y ∈ U, Shape.id x = Shape.id y → x = y)
    {l : List α} (hl : ∀ x ∈ l, x ∈ U) {x : α} :
    x ∈ dedupById l ↔ x ∈ l := by
  rw [dedupById, mem_foldl_pushUnique hU l [] hl (by simp)]
  simp

theorem dedupById_subset {l : List α} {x : α} (hx : x ∈ dedupById l) : x ∈ l := by
  rcases foldl_pushUnique_subset l [] x hx with h | h
  · simp at h
  · exact h

theorem dedupById_nodup {U : List α}
    (hU : ∀ x ∈ U, ∀ y ∈ U, Shape.id x = Shape.id y → x = y)
    {l : List α} (hl : ∀ x ∈ l, x ∈ U) : (dedupById l).Nodup :=
  foldl_pushUnique_nodup hU l [] hl (by simp) (by simp)

/-! ## Invariant unfolding lemmas -/

theorem geomB_leaf_iff {b : BoundingBox} {d : Nat} {es : List α} :
    geomB (QuadTreeNode.leaf b d es) = true ↔
      0 ≤ b.width ∧ 0 ≤ b.height ∧ d ≤ maxDepth := by
  simp [geomB, and_assoc]

theorem geomB_node_iff {b : BoundingBox} {d : Nat} {es : List α}
    {tl tr bl br : QuadTreeNode α} :
    geomB (QuadTreeNode.node b d es tl tr bl br) = true ↔
      0 ≤ b.width ∧ 0 ≤ b.height ∧ d < maxDepth ∧
      tl.bounds = quadTL b ∧ tl.depth = d + 1 ∧
      tr.bounds = quadTR b ∧ tr.depth = d + 1 ∧
      bl.bounds = quadBL b ∧ bl.depth = d + 1 ∧
      br.bounds = quadBR b ∧ br.depth = d + 1 ∧
      geomB tl = true ∧ geomB tr = true ∧ geomB bl = true ∧ geomB br = true := by
  simp [geomB, and_assoc]

variable [DecidableEq α]

theorem contentsB_leaf_iff {S : List α} {b : BoundingBox} {d : Nat} {es : List α} :
    contentsB S (QuadTreeNode.leaf b d es) = true ↔
      es = S.filter (fun e => rectsIntersect b (Shape.getBoundingBox e)) := by
  simp [contentsB]

theorem contentsB_node_iff {S : List α} {b : BoundingBox} {d : Nat} {es : List α}
    {tl tr bl br : QuadTreeNode α} :
    contentsB S (QuadTreeNode.node b d es tl tr bl br) = true ↔
      es = [] ∧ contentsB S tl = true ∧ contentsB S tr = true ∧
      contentsB S bl = true ∧ contentsB S br = true := by
  simp [contentsB, and_assoc]

theorem nodeInvB_leaf_iff {b : BoundingBox} {d : Nat} {es : List α} :
    nodeInvB (QuadTreeNode.leaf b d es) = true ↔
      (d < maxDepth → es.length ≤ maxElements) := by
  simp [nodeInvB]
  omega

theorem nodeInvB_node_iff {b : BoundingBox} {d : Nat} {es : List α}
    {tl tr bl br : QuadTreeNode α} :
    nodeInvB (QuadTreeNode.node b d es tl tr bl br) = true ↔
      es = [] ∧ d < maxDepth ∧ nodeInvB tl = true ∧ nodeInvB tr = true ∧
      nodeInvB bl = true ∧ nodeInvB br = true := by
  simp [nodeInvB, and_assoc]

end QuadTreeNode

namespace QuadTreeNode

variable {α : Type} [Shape α]

theorem depth_le_maxDepth_of_geomB {t : QuadTreeNode α} (hg : geomB t = true) :
    t.depth ≤ maxDepth := by
  match t with
  | .leaf b d es => exact (geomB_leaf_iff.1 hg).2.2
  | .node b d es tl tr bl br => exact Nat.le_of_lt (geomB_node_iff.1 hg).2.2.1

/-! ### Equation lemmas for `insertF` -/

theorem insertF_zero (t : QuadTreeNode α) (e : α) : insertF 0 t e = t := rfl

theorem insertF_leaf_not_inter {g : Nat} {b : BoundingBox} {d : Nat} {es : List α}
    {e : α} (h : ¬(rectsIntersect b (Shape.getBoundingBox e) = true)) :
    insertF (g + 1) (.leaf b d es) e = .leaf b d es := by
  simp only [insertF]
  rw [if_neg h]

theorem insertF_node_not_inter {g : Nat} {b : BoundingBox} {d : Nat} {es : List α}
    {tl tr bl br : QuadTreeNode α} {e : α}
    (h : ¬(rectsIntersect b (Shape.getBoundingBox e) = true)) :
    insertF (g + 1) (.node b d es tl tr bl br) e = .node b d es tl tr bl br := by
  simp only [insertF]
  rw [if_neg h]

theorem insertF_leaf_no_split {g : Nat} {b : BoundingBox} {d : Nat} {es : List α}
    {e : α} (h : rectsIntersect b (Shape.getBoundingBox e) = true)
    (h2 : ¬(maxElements < (es ++ [e]).length ∧ d < maxDepth)) :
    insertF (g + 1) (.leaf b d es) e = .leaf b d (es ++ [e]) := by
  simp only [insertF]
  rw [if_pos h, if_neg h2]

theorem insertF_leaf_split {g : Nat} {b : BoundingBox} {d : Nat} {es : List α}
    {e : α} (h : rectsIntersect b (Shape.getBoundingBox e) = true)
    (h2 : maxElements < (es ++ [e]).length ∧ d < maxDepth) :
    insertF (g + 1) (.leaf b d es) e =
      (fun c : QuadTreeNode α × QuadTreeNode α × QuadTreeNode α × QuadTreeNode α =>
        QuadTreeNode.node b d [] c.1 c.2.1 c.2.2.1 c.2.2.2)
      ((es ++ [e]).foldl
        (fun c el =>
          (insertF g c.1 el, insertF g c.2.1 el,
           insertF g c.2.2.1 el, insertF g c.2.2.2 el))
        (split b d)) := by
  simp only [insertF]
  rw [if_pos h, if_pos h2]

theorem insertF_node_inter {g : Nat} {b : BoundingBox} {d : Nat} {es : List α}
    {tl tr bl br : QuadTreeNode α} {e : α}
    (h : rectsIntersect b (Shape.getBoundingBox e) = true) :
    insertF (g + 1) (.node b d es tl tr bl br) e =
      .node b d es (insertF g tl e) (insertF g tr e) (insertF g bl e) (insertF g br e) := by
  simp only [insertF]
  rw [if_pos h]

/-- The redistribution fold acts componentwise on the four children. -/
theorem foldl_insert_components (g : Nat) :
    ∀ (l : List α) (q : QuadTreeNode α × QuadTreeNode α × QuadTreeNode α × QuadTreeNode α),
      l.foldl
        (fun c el =>
          (insertF g c.1 el, insertF g c.2.1 el,
           insertF g c.2.2.1 el, insertF g c.2.2.2 el)) q =
      (l.foldl (insertF g) q.1, l.foldl (insertF g) q.2.1,
       l.foldl (insertF g) q.2.2.1, l.foldl (insertF g) q.2.2.2) := by
  intro l
  induction l with
  | nil => intro q; rfl
  | cons el l ih => intro q; rw [List.foldl_cons, ih]; rfl

theorem insertF_bounds : ∀ (g : Nat) (t : QuadTreeNode α) (e : α),
    (insertF g t e).bounds = t.bounds := by
  intro g t e
  match g, t with
  | 0, t => rfl
  | g + 1, .leaf b d es =>
    by_cases h : rectsIntersect b (Shape.getBoundingBox e) = true
    · by_cases h2 : maxElements < (es ++ [e]).length ∧ d < maxDepth
      · rw [insertF_leaf_split h h2]
        all_goals rfl
      · rw [insertF_leaf_no_split h h2]
        all_goals rfl
    · rw [insertF_leaf_not_inter h]
      all_goals rfl
  | g + 1, .node b d es tl tr bl br =>
    by_cases h : rectsIntersect b (Shape.getBoundingBox e) = true
    · rw [insertF_node_inter h]
      all_goals rfl
    · rw [insertF_node_not_inter h]
      all_goals rfl

theorem insertF_depth : ∀ (g : Nat) (t : QuadTreeNode α) (e : α),
    (insertF g t e).depth = t.depth := by
  intro g t e
  match g, t with
  | 0, t => rfl
  | g + 1, .leaf b d es =>
    by_cases h : rectsIntersect b (Shape.getBoundingBox e) = true
    · by_cases h2 : maxElements < (es ++ [e]).length ∧ d < maxDepth
      · rw [insertF_leaf_split h h2]
        all_goals rfl
      · rw [insertF_leaf_no_split h h2]
        all_goals rfl
    · rw [insertF_leaf_not_inter h]
      all_goals rfl
  | g + 1, .node b d es tl tr bl br =>
    by_cases h : rectsIntersect b (Shape.getBoundingBox e) = true
    · rw [insertF_node_inter h]
      all_goals rfl
    · rw [insertF_node_not_inter h]
      all_goals rfl

/-! ### Content preservation lemmas -/

variable [DecidableEq α]

theorem contentsB_append_of_not_inter :
    ∀ {t : QuadTreeNode α} {S : List α} {e : α}, geomB t = true →
      rectsIntersect t.bounds (Shape.getBoundingBox e) = false →
      contentsB S t = true → contentsB (S ++ [e]) t = true := by
  intro t
  induction t with
  | leaf b d es =>
    intro S e _ hni hc
    rw [contentsB_leaf_iff] at hc ⊢
    rw [hc, List.filter_append]
    have : List.filter (fun x => rectsIntersect b (Shape.getBoundingBox x)) [e] = [] := by
      simp only [bounds] at hni
      simp [hni]
    rw [this, List.append_nil]
  | node b d es tl tr bl br ihtl ihtr ihbl ihbr =>
    intro S e hg hni hc
    obtain ⟨hw, hh, _, btl, _, btr, _, bbl, _, bbr, _, gtl, gtr, gbl, gbr⟩ :=
      geomB_node_iff.1 hg
    obtain ⟨he, ctl, ctr, cbl, cbr⟩ := contentsB_node_iff.1 hc
    simp only [bounds] at hni
    have hnot : ∀ c : QuadTreeNode α, c.bounds = quadTL b ∨ c.bounds = quadTR b ∨
        c.bounds = quadBL b ∨ c.bounds = quadBR b →
        rectsIntersect c.bounds (Shape.getBoundingBox e) = false := by
      intro c hcb
      by_contra hcon
      have h1 : rectsIntersect c.bounds (Shape.getBoundingBox e) = true := by
        simpa using hcon
      have hsub : rectSub c.bounds b := by
        rcases hcb with h | h | h | h <;> rw [h]
        · exact rectSub_quadTL hw hh
        · exact rectSub_quadTR hw hh
        · exact rectSub_quadBL hw hh
        · exact rectSub_quadBR hw hh
      have := rectsIntersect_mono hsub h1
      rw [this] at hni
      exact Bool.true_eq_false.mp hni
    rw [contentsB_node_iff]
    exact ⟨he, ihtl gtl (hnot tl (Or.inl btl)) ctl,
      ihtr gtr (hnot tr (Or.inr (Or.inl btr))) ctr,
      ihbl gbl (hnot bl (Or.inr (Or.inr (Or.inl bbl)))) cbl,
      ihbr gbr (hnot br (Or.inr (Or.inr (Or.inr bbr)))) cbr⟩

theorem contentsB_erase_of_not_inter :
    ∀ {t : QuadTreeNode α} {S : List α} {e : α}, geomB t = true →
      rectsIntersect t.bounds (Shape.getBoundingBox e) = false →
      contentsB S t = true → contentsB (S.erase e) t = true := by
  intro t
  induction t with
  | leaf b d es =>
    intro S e _ hni hc
    rw [contentsB_leaf_iff] at hc ⊢
    simp only [bounds] at hni
    rw [erase_filter_of_neg (fun x => rectsIntersect b (Shape.getBoundingBox x)) e hni, hc]
  | node b d es tl tr bl br ihtl ihtr ihbl ihbr =>
    intro S e hg hni hc
    obtain ⟨hw, hh, _, btl, _, btr, _, bbl, _, bbr, _, gtl, gtr, gbl, gbr⟩ :=
      geomB_node_iff.1 hg
    obtain ⟨he, ctl, ctr, cbl, cbr⟩ := contentsB_node_iff.1 hc
    simp only [bounds] at hni
    have hnot : ∀ c : QuadTreeNode α, c.bounds = quadTL b ∨ c.bounds = quadTR b ∨
        c.bounds = quadBL b ∨ c.bounds = quadBR b →
        rectsIntersect c.bounds (Shape.getBoundingBox e) = false := by
      intro c hcb
      by_contra hcon
      have h1 : rectsIntersect c.bounds (Shape.getBoundingBox e) = true := by
        simpa using hcon
      have hsub : rectSub c.bounds b := by
        rcases hcb with h | h | h | h <;> rw [h]
        · exact rectSub_quadTL hw hh
        · exact rectSub_quadTR hw hh
        · exact rectSub_quadBL hw hh
        · exact rectSub_quadBR hw hh
      have := rectsIntersect_mono hsub h1
      rw [this] at hni
      exact Bool.true_eq_false.mp hni
    rw [contentsB_node_iff]
    exact ⟨he, ihtl gtl (hnot tl (Or.inl btl)) ctl,
      ihtr gtr (hnot tr (Or.inr (Or.inl btr))) ctr,
      ihbl gbl (hnot bl (Or.inr (Or.inr (Or.inl bbl)))) cbl,
      ihbr gbr (hnot br (Or.inr (Or.inr (Or.inr bbr)))) cbr⟩

/-- Filtering the insertion history by a rectangle containing the whole
subtree does not change the content characterization. -/
theorem contentsB_filter :
    ∀ {c : QuadTreeNode α} {S : List α} {B : BoundingBox}, geomB c = true →
      rectSub c.bounds B →
      contentsB (S.filter (fun x => rectsIntersect B (Shape.getBoundingBox x))) c =
        contentsB S c := by
  intro c
  induction c with
  | leaf b d es =>
    intro S B _ hsub
    simp only [contentsB, bounds] at hsub ⊢
    rw [List.filter_filter]
    congr 1
    apply List.filter_congr
    intro x _
    cases hx : rectsIntersect b (Shape.getBoundingBox x) with
    | false => simp [hx]
    | true =>
      have hB : rectsIntersect B (Shape.getBoundingBox x) = true :=
        rectsIntersect_mono hsub hx
      simp [hx, hB]
  | node b d es tl tr bl br ihtl ihtr ihbl ihbr =>
    intro S B hg hsub
    obtain ⟨hw, hh, _, btl, _, btr, _, bbl, _, bbr, _, gtl, gtr, gbl, gbr⟩ :=
      geomB_node_iff.1 hg
    simp only [bounds] at hsub
    have hs : ∀ c2 : QuadTreeNode α, c2.bounds = quadTL b ∨ c2.bounds = quadTR b ∨
        c2.bounds = quadBL b ∨ c2.bounds = quadBR b → rectSub c2.bounds B := by
      intro c2 hcb
      refine rectSub_trans ?_ hsub
      rcases hcb with h | h | h | h <;> rw [h]
      · exact rectSub_quadTL hw hh
      · exact rectSub_quadTR hw hh
      · exact rectSub_quadBL hw hh
      · exact rectSub_quadBR hw hh
    simp only [contentsB]
    rw [ihtl gtl (hs tl (Or.inl btl)), ihtr gtr (hs tr (Or.inr (Or.inl btr))),
      ihbl gbl (hs bl (Or.inr (Or.inr (Or.inl bbl)))),
      ihbr gbr (hs br (Or.inr (Or.inr (Or.inr bbr))))]

/-- Master preservation lemma: inserting an element preserves geometric
well-formedness and extends the content characterization by that element,
provided the fuel covers the remaining depth budget. -/
theorem insertF_spec : ∀ (g : Nat) (t : QuadTreeNode α) (S : List α) (e : α),
    maxDepth + 1 - t.depth ≤ g → geomB t = true → contentsB S t = true →
    geomB (insertF g t e) = true ∧ contentsB (S ++ [e]) (insertF g t e) = true := by
  intro g
  induction g with
  | zero =>
    intro t S e hfuel hg _
    exfalso
    have := depth_le_maxDepth_of_geomB hg
    omega
  | succ g ih =>
    intro t S e hfuel hg hc
    match t with
    | .leaf b d es =>
      obtain ⟨hw, hh, hd⟩ := geomB_leaf_iff.1 hg
      have hcl := contentsB_leaf_iff.1 hc
      simp only [depth] at hfuel
      by_cases hint : rectsIntersect b (Shape.getBoundingBox e) = true
      · by_cases hsplit : maxElements < (es ++ [e]).length ∧ d < maxDepth
        · rw [insertF_leaf_split hint hsplit, foldl_insert_components]
          dsimp only [split]
          obtain ⟨hlen, hdlt⟩ := hsplit
          have hfuel2 : maxDepth + 1 - (d + 1) ≤ g := by omega
          have foldIns : ∀ (l : List α) (t0 : QuadTreeNode α) (T : List α),
              t0.depth = d + 1 → geomB t0 = true → contentsB T t0 = true →
              geomB (l.foldl (insertF g) t0) = true ∧
              contentsB (T ++ l) (l.foldl (insertF g) t0) = true ∧
              (l.foldl (insertF g) t0).bounds = t0.bounds ∧
              (l.foldl (insertF g) t0).depth = t0.depth := by
            intro l
            induction l with
            | nil =>
              intro t0 T _ hg0 hc0
              exact ⟨hg0, by simpa using hc0, rfl, rfl⟩
            | cons el l ihl =>
              intro t0 T hdep hg0 hc0
              rw [List.foldl_cons]
              have hfuel3 : maxDepth + 1 - t0.depth ≤ g := by rw [hdep]; exact hfuel2
              obtain ⟨hg1, hc1⟩ := ih t0 T el hfuel3 hg0 hc0
              have hdep1 : (insertF g t0 el).depth = d + 1 := by
                rw [insertF_depth, hdep]
              obtain ⟨hg2, hc2, hb2, hd2⟩ := ihl (insertF g t0 el) (T ++ [el]) hdep1 hg1 hc1
              refine ⟨hg2, ?_, by rw [hb2, insertF_bounds], by rw [hd2, insertF_depth]⟩
              rw [List.append_assoc, List.singleton_append] at hc2
              exact hc2
          have hwq : 0 ≤ b.width / 2 := by linarith
          have hhq : 0 ≤ b.height / 2 := by linarith
          have hfresh : ∀ q : BoundingBox, 0 ≤ q.width → 0 ≤ q.height →
              geomB (QuadTreeNode.leaf q (d + 1) [] : QuadTreeNode α) = true := by
            intro q h1 h2
            rw [geomB_leaf_iff]
            exact ⟨h1, h2, by omega⟩
          have hcfresh : ∀ q : BoundingBox,
              contentsB ([] : List α) (QuadTreeNode.leaf q (d + 1) [] : QuadTreeNode α) = true := by
            intro q
            rw [contentsB_leaf_iff]
            rfl
          have hS : es ++ [e] =
              (S ++ [e]).filter (fun x => rectsIntersect b (Shape.getBoundingBox x)) := by
            rw [List.filter_append, ← hcl]
            simp [hint]
          obtain ⟨ga, ca, ba, da⟩ := foldIns (es ++ [e]) (.leaf (quadTL b) (d + 1) []) []
            rfl (hfresh _ (by simpa [quadTL] using hwq) (by simpa [quadTL] using hhq)) (hcfresh _)
          obtain ⟨gb, cb, bb, db⟩ := foldIns (es ++ [e]) (.leaf (quadTR b) (d + 1) []) []
            rfl (hfresh _ (by simpa [quadTR] using hwq) (by simpa [quadTR] using hhq)) (hcfresh _)
          obtain ⟨gc, cc, bc, dc⟩ := foldIns (es ++ [e]) (.leaf (quadBL b) (d + 1) []) []
            rfl (hfresh _ (by simpa [quadBL] using hwq) (by simpa [quadBL] using hhq)) (hcfresh _)
          obtain ⟨gd, cd, bd, dd⟩ := foldIns (es ++ [e]) (.leaf (quadBR b) (d + 1) []) []
            rfl (hfresh _ (by simpa [quadBR] using hwq) (by simpa [quadBR] using hhq)) (hcfresh _)
          rw [List.nil_append] at ca cb cc cd
          nth_rewrite 1 [hS] at ca
          nth_rewrite 1 [hS] at cb
          nth_rewrite 1 [hS] at cc
          nth_rewrite 1 [hS] at cd
          rw [contentsB_filter ga (by rw [ba]; exact rectSub_quadTL hw hh)] at ca
          rw [contentsB_filter gb (by rw [bb]; exact rectSub_quadTR hw hh)] at cb
          rw [contentsB_filter gc (by rw [bc]; exact rectSub_quadBL hw hh)] at cc
          rw [contentsB_filter gd (by rw [bd]; exact rectSub_quadBR hw hh)] at cd
          constructor
          · rw [geomB_node_iff]
            exact ⟨hw, hh, hdlt, ba, da, bb, db, bc, dc, bd, dd, ga, gb, gc, gd⟩
          · rw [contentsB_node_iff]
            exact ⟨rfl, ca, cb, cc, cd⟩
        · rw [insertF_leaf_no_split hint hsplit]
          constructor
          · rw [geomB_leaf_iff]
            exact ⟨hw, hh, hd⟩
          · rw [contentsB_leaf_iff, List.filter_append, ← hcl]
            simp [hint]
      · rw [insertF_leaf_not_inter hint]
        have hint2 : rectsIntersect b (Shape.getBoundingBox e) = false := by
          simpa using hint
        exact ⟨hg, contentsB_append_of_not_inter hg hint2 hc⟩
    | .node b d es tl tr bl br =>
      obtain ⟨hw, hh, hdlt, btl, dtl, btr, dtr, bbl, dbl, bbr, dbr, gtl, gtr, gbl, gbr⟩ :=
        geomB_node_iff.1 hg
      obtain ⟨hes, ctl, ctr, cbl, cbr⟩ := contentsB_node_iff.1 hc
      simp only [depth] at hfuel
      by_cases hint : rectsIntersect b (Shape.getBoundingBox e) = true
      · rw [insertF_node_inter hint]
        have hfuel2 : ∀ c : QuadTreeNode α, c.depth = d + 1 →
            maxDepth + 1 - c.depth ≤ g := by
          intro c hcd
          rw [hcd]
          omega
        obtain ⟨g1, c1⟩ := ih tl S e (hfuel2 tl dtl) gtl ctl
        obtain ⟨g2, c2⟩ := ih tr S e (hfuel2 tr dtr) gtr ctr
        obtain ⟨g3, c3⟩ := ih bl S e (hfuel2 bl dbl) gbl cbl
        obtain ⟨g4, c4⟩ := ih br S e (hfuel2 br dbr) gbr cbr
        constructor
        · rw [geomB_node_iff]
          refine ⟨hw, hh, hdlt, ?_, ?_, ?_, ?_, ?_, ?_, ?_, ?_, g1, g2, g3, g4⟩
          · rw [insertF_bounds]; exact btl
          · rw [insertF_depth]; exact dtl
          · rw [insertF_bounds]; exact btr
          · rw [insertF_depth]; exact dtr
          · rw [insertF_bounds]; exact bbl
          · rw [insertF_depth]; exact dbl
          · rw [insertF_bounds]; exact bbr
          · rw [insertF_depth]; exact dbr
        · rw [contentsB_node_iff]
          exact ⟨hes, c1, c2, c3, c4⟩
      · rw [insertF_node_not_inter hint]
        have hint2 : rectsIntersect b (Shape.getBoundingBox e) = false := by
          simpa using hint
        exact ⟨hg, contentsB_append_of_not_inter hg hint2 hc⟩

/-! ### Subset lemmas -/

theorem elems_subset : ∀ {t : QuadTreeNode α} {S : List α}, contentsB S t = true →
    ∀ x ∈ elems t, x ∈ S := by
  intro t
  induction t with
  | leaf b d es =>
    intro S hc x hx
    rw [contentsB_leaf_iff] at hc
    rw [elems] at hx
    rw [hc] at hx
    exact (List.mem_filter.1 hx).1
  | node b d es tl tr bl br ihtl ihtr ihbl ihbr =>
    intro S hc x hx
    obtain ⟨hes, ctl, ctr, cbl, cbr⟩ := contentsB_node_iff.1 hc
    rw [elems, hes] at hx
    simp only [List.nil_append, List.mem_append] at hx
    rcases hx with h | h | h | h
    · exact ihtl ctl x h
    · exact ihtr ctr x h
    · exact ihbl cbl x h
    · exact ihbr cbr x h

theorem elems_inter : ∀ {t : QuadTreeNode α} {S : List α}, geomB t = true →
    contentsB S t = true →
    ∀ x ∈ elems t, rectsIntersect t.bounds (Shape.getBoundingBox x) = true := by
  intro t
  induction t with
  | leaf b d es =>
    intro S _ hc x hx
    rw [contentsB_leaf_iff] at hc
    rw [elems, hc] at hx
    exact (List.mem_filter.1 hx).2
  | node b d es tl tr bl br ihtl ihtr ihbl ihbr =>
    intro S hg hc x hx
    obtain ⟨hw, hh, _, btl, _, btr, _, bbl, _, bbr, _, gtl, gtr, gbl, gbr⟩ :=
      geomB_node_iff.1 hg
    obtain ⟨hes, ctl, ctr, cbl, cbr⟩ := contentsB_node_iff.1 hc
    rw [elems, hes] at hx
    simp only [List.nil_append, List.mem_append] at hx
    rcases hx with h | h | h | h
    · exact rectsIntersect_mono (btl ▸ rectSub_quadTL hw hh) (ihtl gtl ctl x h)
    · exact rectsIntersect_mono (btr ▸ rectSub_quadTR hw hh) (ihtr gtr ctr x h)
    · exact rectsIntersect_mono (bbl ▸ rectSub_quadBL hw hh) (ihbl gbl cbl x h)
    · exact rectsIntersect_mono (bbr ▸ rectSub_quadBR hw hh) (ihbr gbr cbr x h)

theorem query_subset : ∀ {t : QuadTreeNode α} {S : List α} {R : BoundingBox},
    contentsB S t = true → ∀ x ∈ query t R, x ∈ S := by
  intro t
  induction t with
  | leaf b d es =>
    intro S R hc x hx
    rw [contentsB_leaf_iff] at hc
    rw [query] at hx
    split at hx
    · have := dedupById_subset hx
      rw [hc] at this
      exact (List.mem_filter.1 (List.mem_of_mem_filter this)).1
    · simp at hx
  | node b d es tl tr bl br ihtl ihtr ihbl ihbr =>
    intro S R hc x hx
    obtain ⟨hes, ctl, ctr, cbl, cbr⟩ := contentsB_node_iff.1 hc
    rw [query] at hx
    split at hx
    · have := dedupById_subset hx
      simp only [List.mem_append] at this
      rcases this with ((h | h) | h) | h
      · exact ihtl ctl x h
      · exact ihtr ctr x h
      · exact ihbl cbl x h
      · exact ihbr cbr x h
    · simp at hx

theorem queryPoint_none_of_not_mem {t : QuadTreeNode α} {p : Point}
    (h : ¬(pointInRect p t.bounds = true)) : queryPoint t p = none := by
  match t with
  | .leaf b d es =>
    rw [queryPoint, if_neg (by simpa [bounds] using h)]
  | .node b d es tl tr bl br =>
    rw [queryPoint, if_neg (by simpa [bounds] using h)]

theorem queryPoint_subset : ∀ {t : QuadTreeNode α} {S : List α} {p : Point} {e : α},
    contentsB S t = true → queryPoint t p = some e → e ∈ S := by
  intro t
  induction t with
  | leaf b d es =>
    intro S p e hc hq
    rw [contentsB_leaf_iff] at hc
    rw [queryPoint] at hq
    split at hq
    · have := List.mem_of_find?_eq_some hq
      rw [List.mem_reverse, hc] at this
      exact List.mem_of_mem_filter this
    · exact absurd hq (by simp)
  | node b d es tl tr bl br ihtl ihtr ihbl ihbr =>
    intro S p e hc hq
    obtain ⟨hes, ctl, ctr, cbl, cbr⟩ := contentsB_node_iff.1 hc
    rw [queryPoint] at hq
    split at hq
    · rcases hbr : queryPoint br p with _ | r
      · rw [hbr] at hq
        rcases hbl : queryPoint bl p with _ | r
        · rw [hbl] at hq
          rcases htr : queryPoint tr p with _ | r
          · rw [htr] at hq
            exact ihtl ctl hq
          · rw [htr] at hq
            exact ihtr ctr (htr.trans (by injection hq with h; rw [h]))
        · rw [hbl] at hq
          exact ihbl cbl (hbl.trans (by injection hq with h; rw [h]))
      · rw [hbr] at hq
        exact ihbr cbr (hbr.trans (by injection hq with h; rw [h]))
    · exact absurd hq (by simp)

/-! ### `remove` lemmas -/

theorem remove_fst_bounds : ∀ (t : QuadTreeNode α) (e : α),
    (t.remove e).1.bounds = t.bounds := by
  intro t e
  match t with
  | .leaf b d es =>
    rw [remove]
    split
    · split <;> rfl
    · rfl
  | .node b d es tl tr bl br =>
    rw [remove]
    split <;> rfl

theorem remove_fst_depth : ∀ (t : QuadTreeNode α) (e : α),
    (t.remove e).1.depth = t.depth := by
  intro t e
  match t with
  | .leaf b d es =>
    rw [remove]
    split
    · split <;> rfl
    · rfl
  | .node b d es tl tr bl br =>
    rw [remove]
    split <;> rfl

/-- `remove` preserves geometric well-formedness and erases exactly one
occurrence of the element from the insertion history's characterization. -/
theorem remove_spec : ∀ {t : QuadTreeNode α} {S : List α} {e : α},
    geomB t = true → contentsB S t = true →
    geomB (t.remove e).1 = true ∧ contentsB (S.erase e) (t.remove e).1 = true := by
  intro t
  induction t with
  | leaf b d es =>
    intro S e hg hc
    have hcl := contentsB_leaf_iff.1 hc
    rw [remove]
    by_cases hint : rectsIntersect b (Shape.getBoundingBox e) = true
    · rw [if_pos hint]
      by_cases hmem : e ∈ es
      · rw [if_pos hmem]
        refine ⟨hg, ?_⟩
        rw [contentsB_leaf_iff, hcl,
          filter_erase_of_pos (fun x => rectsIntersect b (Shape.getBoundingBox x)) e hint]
      · rw [if_neg hmem]
        refine ⟨hg, ?_⟩
        rw [contentsB_leaf_iff, hcl]
        rw [← filter_erase_of_pos (fun x => rectsIntersect b (Shape.getBoundingBox x)) e hint]
        rw [List.erase_of_not_mem]
        rw [hcl] at hmem
        exact hmem
    · rw [if_neg hint]
      have hint2 : rectsIntersect b (Shape.getBoundingBox e) = false := by simpa using hint
      exact ⟨hg, contentsB_erase_of_not_inter hg hint2 hc⟩
  | node b d es tl tr bl br ihtl ihtr ihbl ihbr =>
    intro S e hg hc
    obtain ⟨hw, hh, hdlt, btl, dtl, btr, dtr, bbl, dbl, bbr, dbr, gtl, gtr, gbl, gbr⟩ :=
      geomB_node_iff.1 hg
    obtain ⟨hes, ctl, ctr, cbl, cbr⟩ := contentsB_node_iff.1 hc
    rw [remove]
    by_cases hint : rectsIntersect b (Shape.getBoundingBox e) = true
    · rw [if_pos hint]
      obtain ⟨g1, c1⟩ := ihtl gtl ctl
      obtain ⟨g2, c2⟩ := ihtr gtr ctr
      obtain ⟨g3, c3⟩ := ihbl gbl cbl
      obtain ⟨g4, c4⟩ := ihbr gbr cbr
      constructor
      · rw [geomB_node_iff]
        refine ⟨hw, hh, hdlt, ?_, ?_, ?_, ?_, ?_, ?_, ?_, ?_, g1, g2, g3, g4⟩
        · rw [remove_fst_bounds]; exact btl
        · rw [remove_fst_depth]; exact dtl
        · rw [remove_fst_bounds]; exact btr
        · rw [remove_fst_depth]; exact dtr
        · rw [remove_fst_bounds]; exact bbl
        · rw [remove_fst_depth]; exact dbl
        · rw [remove_fst_bounds]; exact bbr
        · rw [remove_fst_depth]; exact dbr
      · rw [contentsB_node_iff]
        exact ⟨hes, c1, c2, c3, c4⟩
    · rw [if_neg hint]
      have hint2 : rectsIntersect b (Shape.getBoundingBox e) = false := by simpa using hint
      exact ⟨hg, contentsB_erase_of_not_inter hg hint2 hc⟩

/-- The boolean returned by `QuadTreeNode.remove` is true exactly when some
leaf of the tree held a reference to the element. -/
theorem remove_snd_iff : ∀ {t : QuadTreeNode α} {S : List α} {e : α},
    geomB t = true → contentsB S t = true →
    ((t.remove e).2 = true ↔ e ∈ elems t) := by
  intro t
  induction t with
  | leaf b d es =>
    intro S e hg hc
    have hcl := contentsB_leaf_iff.1 hc
    rw [remove, elems]
    by_cases hint : rectsIntersect b (Shape.getBoundingBox e) = true
    · rw [if_pos hint]
      by_cases hmem : e ∈ es
      · rw [if_pos hmem]
        simpa using hmem
      · rw [if_neg hmem]
        simpa using hmem
    · rw [if_neg hint]
      simp only [Bool.false_eq_true, false_iff]
      intro hmem
      rw [hcl] at hmem
      exact hint (List.mem_filter.1 hmem).2
  | node b d es tl tr bl br ihtl ihtr ihbl ihbr =>
    intro S e hg hc
    obtain ⟨hw, hh, hdlt, btl, dtl, btr, dtr, bbl, dbl, bbr, dbr, gtl, gtr, gbl, gbr⟩ :=
      geomB_node_iff.1 hg
    obtain ⟨hes, ctl, ctr, cbl, cbr⟩ := contentsB_node_iff.1 hc
    rw [remove, elems, hes]
    by_cases hint : rectsIntersect b (Shape.getBoundingBox e) = true
    · rw [if_pos hint]
      simp only [List.nil_append, List.mem_append, Bool.or_eq_true]
      rw [ihtl gtl ctl, ihtr gtr ctr, ihbl gbl cbl, ihbr gbr cbr]
      tauto
    · rw [if_neg hint]
      simp only [Bool.false_eq_true, false_iff, List.nil_append, List.mem_append]
      intro hmem
      have : rectsIntersect b (Shape.getBoundingBox e) = true := by
        rcases hmem with h | h | h | h
        · exact rectsIntersect_mono (btl ▸ rectSub_quadTL hw hh) (elems_inter gtl ctl e h)
        · exact rectsIntersect_mono (btr ▸ rectSub_quadTR hw hh) (elems_inter gtr ctr e h)
        · exact rectsIntersect_mono (bbl ▸ rectSub_quadBL hw hh) (elems_inter gbl cbl e h)
        · exact rectsIntersect_mono (bbr ▸ rectSub_quadBR hw hh) (elems_inter gbr cbr e h)
      exact hint this

/-! ### Node-structure invariant preservation (claim C8) -/

theorem insertF_nodeInv : ∀ (g : Nat) (t : QuadTreeNode α) (e : α),
    nodeInvB t = true → nodeInvB (insertF g t e) = true := by
  intro g
  induction g with
  | zero => intro t e h; exact h
  | succ g ih =>
    intro t e h
    match t with
    | .leaf b d es =>
      have hl := nodeInvB_leaf_iff.1 h
      by_cases hint : rectsIntersect b (Shape.getBoundingBox e) = true
      · by_cases hsplit : maxElements < (es ++ [e]).length ∧ d < maxDepth
        · rw [insertF_leaf_split hint hsplit, foldl_insert_components]
          dsimp only [split]
          have foldInv : ∀ (l : List α) (t0 : QuadTreeNode α), nodeInvB t0 = true →
              nodeInvB (l.foldl (insertF g) t0) = true := by
            intro l
            induction l with
            | nil => intro t0 h0; exact h0
            | cons el l ihl =>
              intro t0 h0
              rw [List.foldl_cons]
              exact ihl _ (ih t0 el h0)
          have hfresh : ∀ q : BoundingBox,
              nodeInvB (QuadTreeNode.leaf q (d + 1) [] : QuadTreeNode α) = true := by
            intro q
            rw [nodeInvB_leaf_iff]
            intro _
            simp [maxElements]
          rw [nodeInvB_node_iff]
          exact ⟨rfl, hsplit.2, foldInv _ _ (hfresh _), foldInv _ _ (hfresh _),
            foldInv _ _ (hfresh _), foldInv _ _ (hfresh _)⟩
        · rw [insertF_leaf_no_split hint hsplit]
          rw [nodeInvB_leaf_iff]
          intro hdlt
          rw [List.length_append]
          by_contra hlen
          exact hsplit ⟨by simpa using Nat.lt_of_not_le (fun hle => hlen (by simpa using hle)), hdlt⟩
      · rw [insertF_leaf_not_inter hint]
        exact h
    | .node b d es tl tr bl br =>
      obtain ⟨hes, hdlt, h1, h2, h3, h4⟩ := nodeInvB_node_iff.1 h
      by_cases hint : rectsIntersect b (Shape.getBoundingBox e) = true
      · rw [insertF_node_inter hint, nodeInvB_node_iff]
        exact ⟨hes, hdlt, ih tl e h1, ih tr e h2, ih bl e h3, ih br e h4⟩
      · rw [insertF_node_not_inter hint]
        exact h

theorem remove_nodeInv : ∀ (t : QuadTreeNode α) (e : α),
    nodeInvB t = true → nodeInvB (t.remove e).1 = true := by
  intro t
  induction t with
  | leaf b d es =>
    intro e h
    have hl := nodeInvB_leaf_iff.1 h
    rw [remove]
    split
    · split
      · rw [nodeInvB_leaf_iff]
        intro hdlt
        calc (es.erase e).length ≤ es.length := List.length_erase_le _ _
          _ ≤ maxElements := hl hdlt
      · exact h
    · exact h
  | node b d es tl tr bl br ihtl ihtr ihbl ihbr =>
    intro e h
    obtain ⟨hes, hdlt, h1, h2, h3, h4⟩ := nodeInvB_node_iff.1 h
    rw [remove]
    split
    · rw [nodeInvB_node_iff]
      exact ⟨hes, hdlt, ihtl e h1, ihtr e h2, ihbl e h3, ihbr e h4⟩
    · exact h

/-- Completeness kernel: a rectangle `A` meeting the parent, a region `R`
meeting the parent, and `A` meeting `R` (all non-degenerate) must both meet a
common quadrant of the parent. -/
theorem quad_side_selection {b A R : BoundingBox}
    (hAw : 0 ≤ A.width) (hAh : 0 ≤ A.height) (hRw : 0 ≤ R.width) (hRh : 0 ≤ R.height)
    (hAb : rectsIntersect A b = true) (hbR : rectsIntersect b R = true)
    (hRA : rectsIntersect R A = true) :
    (rectsIntersect A (quadTL b) = true ∧ rectsIntersect (quadTL b) R = true) ∨
    (rectsIntersect A (quadTR b) = true ∧ rectsIntersect (quadTR b) R = true) ∨
    (rectsIntersect A (quadBL b) = true ∧ rectsIntersect (quadBL b) R = true) ∨
    (rectsIntersect A (quadBR b) = true ∧ rectsIntersect (quadBR b) R = true) := by
  rw [rectsIntersect_iff] at hAb hbR hRA
  obtain ⟨hab1, hab2, hab3, hab4⟩ := hAb
  obtain ⟨hbr1, hbr2, hbr3, hbr4⟩ := hbR
  obtain ⟨hra1, hra2, hra3, hra4⟩ := hRA
  have hx : (A.x ≤ b.x + b.width / 2 ∧ R.x ≤ b.x + b.width / 2) ∨
      (b.x + b.width / 2 ≤ A.x + A.width ∧ b.x + b.width / 2 ≤ R.x + R.width) := by
    by_cases h1 : A.x ≤ b.x + b.width / 2
    · by_cases h2 : R.x ≤ b.x + b.width / 2
      · exact Or.inl ⟨h1, h2⟩
      · push_neg at h2
        exact Or.inr ⟨by linarith, by linarith⟩
    · push_neg at h1
      exact Or.inr ⟨by linarith, by linarith⟩
  have hy : (A.y ≤ b.y + b.height / 2 ∧ R.y ≤ b.y + b.height / 2) ∨
      (b.y + b.height / 2 ≤ A.y + A.height ∧ b.y + b.height / 2 ≤ R.y + R.height) := by
    by_cases h1 : A.y ≤ b.y + b.height / 2
    · by_cases h2 : R.y ≤ b.y + b.height / 2
      · exact Or.inl ⟨h1, h2⟩
      · push_neg at h2
        exact Or.inr ⟨by linarith, by linarith⟩
    · push_neg at h1
      exact Or.inr ⟨by linarith, by linarith⟩
  rcases hx with ⟨hx1, hx2⟩ | ⟨hx1, hx2⟩ <;> rcases hy with ⟨hy1, hy2⟩ | ⟨hy1, hy2⟩
  · refine Or.inl ⟨?_, ?_⟩ <;> rw [rectsIntersect_iff] <;> simp only [quadTL] <;>
      exact ⟨by linarith, by linarith, by linarith, by linarith⟩
  · refine Or.inr (Or.inr (Or.inl ⟨?_, ?_⟩)) <;> rw [rectsIntersect_iff] <;>
      simp only [quadBL] <;>
      exact ⟨by linarith, by linarith, by linarith, by linarith⟩
  · refine Or.inr (Or.inl ⟨?_, ?_⟩) <;> rw [rectsIntersect_iff] <;>
      simp only [quadTR] <;>
      exact ⟨by linarith, by linarith, by linarith, by linarith⟩
  · refine Or.inr (Or.inr (Or.inr ⟨?_, ?_⟩)) <;> rw [rectsIntersect_iff] <;>
      simp only [quadBR] <;>
      exact ⟨by linarith, by linarith, by linarith, by linarith⟩

/-- Full characterization of `query` (claim C1): on a well-formed tree whose
contents come from the insertion history `S` with injective ids, the query
returns exactly the elements of `S` whose bounds meet the region, the
subtree's bounds, and with the region meeting the subtree's bounds; the
result has no duplicates. -/
theorem query_spec : ∀ {t : QuadTreeNode α} {S : List α} {R : BoundingBox},
    geomB t = true → contentsB S t = true →
    (∀ x ∈ S, ∀ y ∈ S, Shape.id x = Shape.id y → x = y) →
    (∀ x ∈ S, 0 ≤ (Shape.getBoundingBox x).width ∧ 0 ≤ (Shape.getBoundingBox x).height) →
    0 ≤ R.width → 0 ≤ R.height →
    (query t R).Nodup ∧
      ∀ e, e ∈ query t R ↔
        e ∈ S ∧ rectsIntersect R (Shape.getBoundingBox e) = true ∧
        rectsIntersect (Shape.getBoundingBox e) t.bounds = true ∧
        rectsIntersect t.bounds R = true := by
  intro t
  induction t with
  | leaf b d es =>
    intro S R hg hc hid hdim hRw hRh
    have hcl := contentsB_leaf_iff.1 hc
    rw [query]
    by_cases hbR : rectsIntersect b R = true
    · rw [if_pos hbR]
      have hsubS : ∀ x ∈ es.filter (fun e => rectsIntersect R (Shape.getBoundingBox e)), x ∈ S := by
        intro x hx
        rw [hcl] at hx
        exact List.mem_of_mem_filter (List.mem_of_mem_filter hx)
      constructor
      · exact dedupById_nodup hid hsubS
      · intro e
        rw [mem_dedupById hid hsubS, List.mem_filter]
        constructor
        · rintro ⟨hmem, hQ⟩
          rw [hcl] at hmem
          obtain ⟨hS, hP⟩ := List.mem_filter.1 hmem
          refine ⟨hS, hQ, ?_, hbR⟩
          rw [rectsIntersect_comm]
          exact hP
        · rintro ⟨hS, hQ, hP, _⟩
          refine ⟨?_, hQ⟩
          rw [hcl, List.mem_filter]
          refine ⟨hS, ?_⟩
          rw [rectsIntersect_comm]
          exact hP
    · rw [if_neg hbR]
      refine ⟨List.nodup_nil, fun e => ?_⟩
      simp only [List.not_mem_nil, false_iff, not_and]
      intro _ _ _ h
      exact hbR h
  | node b d es tl tr bl br ihtl ihtr ihbl ihbr =>
    intro S R hg hc hid hdim hRw hRh
    obtain ⟨hw, hh, hdlt, btl, dtl, btr, dtr, bbl, dbl, bbr, dbr, gtl, gtr, gbl, gbr⟩ :=
      geomB_node_iff.1 hg
    obtain ⟨hes, ctl, ctr, cbl, cbr⟩ := contentsB_node_iff.1 hc
    obtain ⟨ntl, mtl⟩ := ihtl gtl ctl hid hdim hRw hRh
    obtain ⟨ntr, mtr⟩ := ihtr gtr ctr hid hdim hRw hRh
    obtain ⟨nbl, mbl⟩ := ihbl gbl cbl hid hdim hRw hRh
    obtain ⟨nbr, mbr⟩ := ihbr gbr cbr hid hdim hRw hRh
    have stl : rectSub tl.bounds b := by rw [btl]; exact rectSub_quadTL hw hh
    have str : rectSub tr.bounds b := by rw [btr]; exact rectSub_quadTR hw hh
    have sbl : rectSub bl.bounds b := by rw [bbl]; exact rectSub_quadBL hw hh
    have sbr : rectSub br.bounds b := by rw [bbr]; exact rectSub_quadBR hw hh
    rw [query]
    simp only [bounds]
    by_cases hbR : rectsIntersect b R = true
    · rw [if_pos hbR]
      have hsubS : ∀ x ∈ query tl R ++ query tr R ++ query bl R ++ query br R, x ∈ S := by
        intro x hx
        simp only [List.mem_append] at hx
        rcases hx with ((h | h) | h) | h
        · exact query_subset ctl x h
        · exact query_subset ctr x h
        · exact query_subset cbl x h
        · exact query_subset cbr x h
      constructor
      · exact dedupById_nodup hid hsubS
      · intro e
        rw [mem_dedupById hid hsubS]
        simp only [List.mem_append]
        constructor
        · rintro (((h | h) | h) | h)
          · obtain ⟨hS, hQ, hP, _⟩ := (mtl e).1 h
            refine ⟨hS, hQ, ?_, hbR⟩
            rw [rectsIntersect_comm] at hP ⊢
            exact rectsIntersect_mono stl hP
          · obtain ⟨hS, hQ, hP, _⟩ := (mtr e).1 h
            refine ⟨hS, hQ, ?_, hbR⟩
            rw [rectsIntersect_comm] at hP ⊢
            exact rectsIntersect_mono str hP
          · obtain ⟨hS, hQ, hP, _⟩ := (mbl e).1 h
            refine ⟨hS, hQ, ?_, hbR⟩
            rw [rectsIntersect_comm] at hP ⊢
            exact rectsIntersect_mono sbl hP
          · obtain ⟨hS, hQ, hP, _⟩ := (mbr e).1 h
            refine ⟨hS, hQ, ?_, hbR⟩
            rw [rectsIntersect_comm] at hP ⊢
            exact rectsIntersect_mono sbr hP
        · rintro ⟨hS, hQ, hP, _⟩
          obtain ⟨hew, heh⟩ := hdim e hS
          have hsel := quad_side_selection hew heh hRw hRh hP hbR hQ
          rcases hsel with ⟨h1, h2⟩ | ⟨h1, h2⟩ | ⟨h1, h2⟩ | ⟨h1, h2⟩
          · refine Or.inl (Or.inl (Or.inl ((mtl e).2 ⟨hS, hQ, ?_, ?_⟩)))
            · rw [btl]; exact h1
            · rw [btl]; exact h2
          · refine Or.inl (Or.inl (Or.inr ((mtr e).2 ⟨hS, hQ, ?_, ?_⟩)))
            · rw [btr]; exact h1
            · rw [btr]; exact h2
          · refine Or.inl (Or.inr ((mbl e).2 ⟨hS, hQ, ?_, ?_⟩))
            · rw [bbl]; exact h1
            · rw [bbl]; exact h2
          · refine Or.inr ((mbr e).2 ⟨hS, hQ, ?_, ?_⟩)
            · rw [bbr]; exact h1
            · rw [bbr]; exact h2
    · rw [if_neg hbR]
      refine ⟨List.nodup_nil, fun e => ?_⟩
      simp only [List.not_mem_nil, false_iff, not_and]
      intro _ _ _ h
      exact hbR h

/-- Full characterization of `queryPoint` (claim C2): on a well-formed tree
with contents from insertion history `S`, for a point inside the tree's
bounds, and provided every indexed shape's precise hit test at `p` implies
bounding-box membership at `p`, `queryPoint` returns exactly the most
recently inserted shape containing `p` (`getLast?` of the filtered history),
or `none` when no shape contains `p`. -/
theorem queryPoint_spec : ∀ {t : QuadTreeNode α} {S : List α} {p : Point},
    geomB t = true → contentsB S t = true →
    (∀ x ∈ S, Shape.containsPoint x p = true →
      pointInRect p (Shape.getBoundingBox x) = true) →
    pointInRect p t.bounds = true →
    queryPoint t p = (S.filter (fun x => Shape.containsPoint x p)).getLast? := by
  intro t
  induction t with
  | leaf b d es =>
    intro S p hg hc hbb hp
    have hcl := contentsB_leaf_iff.1 hc
    simp only [bounds] at hp
    rw [queryPoint, if_pos hp,
      reverse_find?_eq_filter_getLast? (fun x => Shape.containsPoint x p), hcl,
      List.filter_filter]
    congr 1
    apply List.filter_congr
    intro x hx
    cases hC : Shape.containsPoint x p with
    | false => simp [hC]
    | true =>
      have hxb : pointInRect p (Shape.getBoundingBox x) = true := hbb x hx hC
      have : rectsIntersect b (Shape.getBoundingBox x) = true :=
        rectsIntersect_of_shared hp hxb
      simp [hC, this]
  | node b d es tl tr bl br ihtl ihtr ihbl ihbr =>
    intro S p hg hc hbb hp
    obtain ⟨hw, hh, hdlt, btl, dtl, btr, dtr, bbl, dbl, bbr, dbr, gtl, gtr, gbl, gbr⟩ :=
      geomB_node_iff.1 hg
    obtain ⟨hes, ctl, ctr, cbl, cbr⟩ := contentsB_node_iff.1 hc
    simp only [bounds] at hp
    have vtl : queryPoint tl p = (S.filter (fun x => Shape.containsPoint x p)).getLast? ∨
        queryPoint tl p = none := by
      by_cases hin : pointInRect p tl.bounds = true
      · exact Or.inl (ihtl gtl ctl hbb hin)
      · exact Or.inr (queryPoint_none_of_not_mem hin)
    have vtr : queryPoint tr p = (S.filter (fun x => Shape.containsPoint x p)).getLast? ∨
        queryPoint tr p = none := by
      by_cases hin : pointInRect p tr.bounds = true
      · exact Or.inl (ihtr gtr ctr hbb hin)
      · exact Or.inr (queryPoint_none_of_not_mem hin)
    have vbl : queryPoint bl p = (S.filter (fun x => Shape.containsPoint x p)).getLast? ∨
        queryPoint bl p = none := by
      by_cases hin : pointInRect p bl.bounds = true
      · exact Or.inl (ihbl gbl cbl hbb hin)
      · exact Or.inr (queryPoint_none_of_not_mem hin)
    have vbr : queryPoint br p = (S.filter (fun x => Shape.containsPoint x p)).getLast? ∨
        queryPoint br p = none := by
      by_cases hin : pointInRect p br.bounds = true
      · exact Or.inl (ihbr gbr cbr hbb hin)
      · exact Or.inr (queryPoint_none_of_not_mem hin)
    have utl : pointInRect p (quadTL b) = true →
        queryPoint tl p = (S.filter (fun x => Shape.containsPoint x p)).getLast? := by
      intro hin
      exact ihtl gtl ctl hbb (by rw [btl]; exact hin)
    have utr : pointInRect p (quadTR b) = true →
        queryPoint tr p = (S.filter (fun x => Shape.containsPoint x p)).getLast? := by
      intro hin
      exact ihtr gtr ctr hbb (by rw [btr]; exact hin)
    have ubl : pointInRect p (quadBL b) = true →
        queryPoint bl p = (S.filter (fun x => Shape.containsPoint x p)).getLast? := by
      intro hin
      exact ihbl gbl cbl hbb (by rw [bbl]; exact hin)
    have ubr : pointInRect p (quadBR b) = true →
        queryPoint br p = (S.filter (fun x => Shape.containsPoint x p)).getLast? := by
      intro hin
      exact ihbr gbr cbr hbb (by rw [bbr]; exact hin)
    rw [queryPoint, if_pos hp]
    rcases hG : (S.filter (fun x => Shape.containsPoint x p)).getLast? with _ | g
    · rw [hG] at vtl vtr vbl vbr
      have ztl : queryPoint tl p = none := by rcases vtl with h | h <;> exact h
      have ztr : queryPoint tr p = none := by rcases vtr with h | h <;> exact h
      have zbl : queryPoint bl p = none := by rcases vbl with h | h <;> exact h
      have zbr : queryPoint br p = none := by rcases vbr with h | h <;> exact h
      rw [zbr, zbl, ztr, ztl]
    · rw [hG] at vtl vtr vbl vbr utl utr ubl ubr
      rcases vbr with hbr | hbr
      · rw [hbr]
      · rw [hbr]
        rcases vbl with hbl | hbl
        · rw [hbl]
        · rw [hbl]
          rcases vtr with htr | htr
          · rw [htr]
          · rw [htr]
            rcases quad_cover hp with h | h | h | h
            · exact utl h
            · have := utr h
              rw [htr] at this
              exact absurd this (by simp)
            · have := ubl h
              rw [hbl] at this
              exact absurd this (by simp)
            · have := ubr h
              rw [hbr] at this
              exact absurd this (by simp)

/-! ### Skeleton: the tree structure with element lists forgotten -/

end QuadTreeNode

/-- The subdivision skeleton of a quadtree: bounds, depths and the
leaf/children structure, with the element lists forgotten. -/
inductive Skel where
  | leaf (bounds : BoundingBox) (depth : Nat)
  | node (bounds : BoundingBox) (depth : Nat) (tl tr bl br : Skel)
deriving DecidableEq, Repr

namespace QuadTreeNode

variable {α : Type}

def skel : QuadTreeNode α → Skel
  | .leaf b d _ => .leaf b d
  | .node b d _ tl tr bl br => .node b d (skel tl) (skel tr) (skel bl) (skel br)

variable [Shape α] [DecidableEq α]

/-- `remove` never merges or removes children: the subdivision skeleton is
unchanged. -/
theorem skel_remove : ∀ (t : QuadTreeNode α) (e : α), skel (t.remove e).1 = skel t := by
  intro t
  induction t with
  | leaf b d es =>
    intro e
    rw [remove]
    split
    · split <;> rfl
    · rfl
  | node b d es tl tr bl br ihtl ihtr ihbl ihbr =>
    intro e
    rw [remove]
    split
    · simp only [skel]
      rw [ihtl e, ihtr e, ihbl e, ihbr e]
    · rfl

end QuadTreeNode

/-! ## SpatialIndex-level invariants -/

namespace SpatialIndex

open QuadTreeNode

variable {α : Type} [Shape α] [DecidableEq α]

/-- The index is well-formed with insertion history `S`. -/
def WF (si : SpatialIndex α) (S : List α) : Prop :=
  geomB si.root = true ∧ contentsB S si.root = true

theorem WF_create {b : BoundingBox} (hw : 0 ≤ b.width) (hh : 0 ≤ b.height) :
    WF (create b : SpatialIndex α) [] := by
  constructor
  · rw [create, geomB_leaf_iff]
    refine ⟨hw, hh, by omega⟩
  · rw [create, contentsB_leaf_iff]
    rfl

theorem WF_insert {si : SpatialIndex α} {S : List α} (e : α) (h : WF si S) :
    WF (si.insert e) (S ++ [e]) :=
  insertF_spec (maxDepth + 1) si.root S e (Nat.sub_le _ _) h.1 h.2

theorem WF_insertAll {si : SpatialIndex α} {S : List α} :
    ∀ (l : List α), WF si S → WF (si.insertAll l) (S ++ l) := by
  intro l
  induction l generalizing si S with
  | nil =>
    intro h
    simpa [insertAll] using h
  | cons e l ih =>
    intro h
    have h1 := WF_insert e h
    have h2 := ih h1
    rw [List.append_assoc, List.singleton_append] at h2
    simpa [insertAll] using h2

theorem WF_remove {si : SpatialIndex α} {S : List α} (e : α) (h : WF si S) :
    WF (si.remove e) (S.erase e) :=
  remove_spec h.1 h.2

theorem root_bounds_insert (si : SpatialIndex α) (e : α) :
    (si.insert e).root.bounds = si.root.bounds :=
  insertF_bounds _ _ _

theorem root_bounds_insertAll (si : SpatialIndex α) :
    ∀ l : List α, (si.insertAll l).root.bounds = si.root.bounds := by
  intro l
  induction l generalizing si with
  | nil => rfl
  | cons e l ih =>
    show ((si.insert e).insertAll l).root.bounds = si.root.bounds
    rw [ih, root_bounds_insert]

theorem root_bounds_remove (si : SpatialIndex α) (e : α) :
    (si.remove e).root.bounds = si.root.bounds :=
  remove_fst_bounds _ _

/-- States reachable through the public `SpatialIndex` API. -/
inductive Reachable : SpatialIndex α → Prop where
  | create (bounds : BoundingBox) : Reachable (create bounds)
  | insert {si : SpatialIndex α} (e : α) : Reachable si → Reachable (si.insert e)
  | remove {si : SpatialIndex α} (e : α) : Reachable si → Reachable (si.remove e)
  | update {si : SpatialIndex α} (e : α) : Reachable si → Reachable (si.update e)
  | clear {si : SpatialIndex α} : Reachable si → Reachable si.clear
  | rebuild {si : SpatialIndex α} (bounds : BoundingBox) (elements : List α) :
      Reachable si → Reachable (si.rebuild bounds elements)

theorem nodeInv_foldl_insert :
    ∀ (l : List α) (si : SpatialIndex α), nodeInvB si.root = true →
      nodeInvB ((l.foldl insert si).root) = true := by
  intro l
  induction l with
  | nil => intro si h; exact h
  | cons e l ih =>
    intro si h
    rw [List.foldl_cons]
    exact ih _ (insertF_nodeInv _ _ _ h)

theorem nodeInv_create (b : BoundingBox) :
    nodeInvB ((create b : SpatialIndex α).root) = true := by
  rw [create, nodeInvB_leaf_iff]
  intro _
  simp [maxElements]

/-- Every reachable index state satisfies the node-structure invariant. -/
theorem nodeInv_reachable {si : SpatialIndex α} (h : Reachable si) :
    nodeInvB si.root = true := by
  induction h with
  | create b => exact nodeInv_create b
  | insert e _ ih => exact insertF_nodeInv _ _ _ ih
  | remove e _ ih => exact remove_nodeInv _ _ ih
  | update e _ ih => exact insertF_nodeInv _ _ _ (remove_nodeInv _ _ ih)
  | clear _ ih =>
    rename_i si2 hreach
    show nodeInvB (QuadTreeNode.clear si2.root) = true
    match si2.root with
    | .leaf b d es =>
      rw [QuadTreeNode.clear, nodeInvB_leaf_iff]
      intro _
      simp [maxElements]
    | .node b d es tl tr bl br =>
      rw [QuadTreeNode.clear, nodeInvB_leaf_iff]
      intro _
      simp [maxElements]
  | rebuild b elements _ _ =>
    exact nodeInv_foldl_insert elements (create b) (nodeInv_create b)

end SpatialIndex

/-! ## `ElementManager` (ElementManager.ts)

`elements` is a JS `Map<string, IElement>`: embedded as an insertion-ordered
association list where `set` replaces in place and `delete` removes the
(unique) binding. -/

def mapSet {α : Type} (m : List (String × α)) (k : String) (v : α) : List (String × α) :=
  match m with
  | [] => [(k, v)]
  | (k2, v2) :: rest => if k2 = k then (k2, v) :: rest else (k2, v2) :: mapSet rest k v

def mapGet {α : Type} (m : List (String × α)) (k : String) : Option α :=
  (m.find? (fun q => q.1 == k)).map (fun q => q.2)

def mapDelete {α : Type} (m : List (String × α)) (k : String) : List (String × α) :=
  match m with
  | [] => []
  | (k2, v2) :: rest => if k2 = k then rest else (k2, v2) :: mapDelete rest k

structure ElementManager (α : Type) where
  elements : List (String × α)
  zIndexOrder : List String
  spatialIndex : SpatialIndex α

namespace ElementManager

variable {α : Type} [Shape α] [DecidableEq α]

/-- The constructor `new ElementManager(spatialIndex)`. -/
def create (spatialIndex : SpatialIndex α) : ElementManager α :=
  ⟨[], [], spatialIndex⟩

/-- `add`: no duplicate-id check; the map binding is overwritten, the id is
pushed onto the draw order again, and the element is indexed. -/
def add (em : ElementManager α) (element : α) : ElementManager α :=
  { elements := mapSet em.elements (Shape.id element) element
    zIndexOrder := em.zIndexOrder ++ [Shape.id element]
    spatialIndex := em.spatialIndex.insert element }

/-- `remove(id)`: absence is reported as `false`, never as a fault. -/
def remove (em : ElementManager α) (id : String) : ElementManager α × Bool :=
  match mapGet em.elements id with
  | none => (em, false)
  | some element =>
      ({ elements := mapDelete em.elements id
         zIndexOrder := em.zIndexOrder.erase id
         spatialIndex := em.spatialIndex.remove element }, true)

def get (em : ElementManager α) (id : String) : Option α :=
  mapGet em.elements id

/-- `getAll`: the draw order mapped through the store, dropping dangling
ids. -/
def getAll (em : ElementManager α) : List α :=
  em.zIndexOrder.filterMap (fun i => mapGet em.elements i)

end ElementManager

/-! ## `InteractionManager` (InteractionManager.ts)

Callbacks are modelled as emitted notification events (the engine registers
every callback, so a notification in the source is a callback invocation);
the mutation `element.selected = b` of the shared shape object is modelled
as the emitted effect `setSelectedFlag`. -/

inductive InteractionMode where
  | pen
  | rectangle
  | select
deriving DecidableEq, Repr

inductive IMEvent where
  | elementSelected (element : Option IElem)
  | elementMoved (element : IElem) (deltaX deltaY : ℚ) (oldBounds : BoundingBox)
  | pathDrawing (points : List Point)
  | pathComplete (points : List Point)
  | rectangleDrawing (start stop : Point)
  | rectangleComplete (start stop : Point)
  | setSelectedFlag (element : IElem) (value : Bool)
deriving DecidableEq, Repr

def IMEvent.isPathComplete : IMEvent → Bool
  | .pathComplete _ => true
  | _ => false

/-- The state of the `InteractionManager` class.  `mode` is the class field
`this.mode` and `stateMode` its duplicate `this.state.mode`. -/
structure InteractionManager where
  spatialIndex : SpatialIndex IElem
  transform : Transform
  mode : InteractionMode
  stateMode : InteractionMode
  isActive : Bool
  startPoint : Option Point
  currentPoint : Option Point
  selectedElement : Option IElem
  draggedElement : Option IElem
  dragOffset : Option Point
  currentPathPoints : List Point

namespace InteractionManager

/-- The constructor: SELECT mode, inactive, everything null/empty. -/
def create (spatialIndex : SpatialIndex IElem) (transform : Transform) :
    InteractionManager :=
  ⟨spatialIndex, transform, .select, .select, false, none, none, none, none, none, []⟩

/-- `clearSelection`: clears the selected shape's flag, nulls the slot, and
notifies selection-changed with null. -/
def clearSelection (m : InteractionManager) : InteractionManager × List IMEvent :=
  let evs : List IMEvent :=
    match m.selectedElement with
    | some el => [.setSelectedFlag el false]
    | none => []
  ({ m with selectedElement := none }, evs ++ [.elementSelected none])

/-- `setMode`: sets both mode fields, then clears the selection. -/
def setMode (m : InteractionManager) (mode : InteractionMode) :
    InteractionManager × List IMEvent :=
  clearSelection { m with mode := mode, stateMode := mode }

def screenToCanvas (m : InteractionManager) (screenX screenY : ℚ) : Point :=
  applyInverseTransform ⟨screenX, screenY⟩ m.transform

def handleMouseDown (m : InteractionManager) (clientX clientY : ℚ) :
    InteractionManager × List IMEvent :=
  let canvasPoint := m.screenToCanvas clientX clientY
  let m1 := { m with startPoint := some canvasPoint, currentPoint := some canvasPoint,
                     isActive := true }
  if m1.mode = InteractionMode.pen then
    let m2 := { m1 with currentPathPoints := [canvasPoint] }
    (m2, [.pathDrawing m2.currentPathPoints])
  else if m1.mode = InteractionMode.rectangle then
    (m1, [.rectangleDrawing canvasPoint canvasPoint])
  else
    match m1.spatialIndex.queryPoint canvasPoint with
    | some element =>
        let elementBounds := element.getBoundingBox
        ({ m1 with
            selectedElement := some element
            draggedElement := some element
            dragOffset := some ⟨canvasPoint.x - elementBounds.x,
              canvasPoint.y - elementBounds.y⟩ },
         [.setSelectedFlag element true, .elementSelected (some element)])
    | none => m1.clearSelection

/-- The in-place drag mutation: `element.x += dx; element.y += dy`, and for
paths also every constituent point. -/
def moveElement (el : IElem) (dx dy : ℚ) : IElem :=
  match el with
  | .rect r => .rect { r with x := r.x + dx, y := r.y + dy }
  | .path p => .path { p with
      x := p.x + dx
      y := p.y + dy
      points := p.points.map (fun q => ⟨q.x + dx, q.y + dy⟩) }

def handleMouseMove (m : InteractionManager) (clientX clientY : ℚ) :
    InteractionManager × List IMEvent :=
  if m.isActive = false then (m, [])
  else
    let canvasPoint := m.screenToCanvas clientX clientY
    let m1 := { m with currentPoint := some canvasPoint }
    if m1.mode = InteractionMode.pen then
      let m2 := { m1 with currentPathPoints := m1.currentPathPoints ++ [canvasPoint] }
      (m2, [.pathDrawing m2.currentPathPoints])
    else if m1.mode = InteractionMode.rectangle then
      match m1.startPoint with
      | some start => (m1, [.rectangleDrawing start canvasPoint])
      | none => (m1, [])
    else
      match m1.draggedElement, m1.currentPoint, m1.startPoint with
      | some dragged, some _, some start =>
          let deltaX := canvasPoint.x - start.x
          let deltaY := canvasPoint.y - start.y
          let oldBounds := dragged.getBoundingBox
          -- In the source the dragged object is mutated in place and
          -- `spatialIndex.update` re-indexes that same reference; with
          -- immutable values we re-index the moved value.  No theorem below
          -- exercises this branch.
          let moved := moveElement dragged deltaX deltaY
          ({ m1 with
              draggedElement := some moved
              spatialIndex := m1.spatialIndex.update moved
              startPoint := some canvasPoint },
           [.elementMoved moved deltaX deltaY oldBounds])
      | _, _, _ => (m1, [])

def handleMouseUp (m : InteractionManager) (clientX clientY : ℚ) :
    InteractionManager × List IMEvent :=
  if m.isActive = false then (m, [])
  else
    let canvasPoint := m.screenToCanvas clientX clientY
    let pair : InteractionManager × List IMEvent :=
      if m.mode = InteractionMode.pen ∧ 1 < m.currentPathPoints.length then
        ({ m with currentPathPoints := [] }, [.pathComplete m.currentPathPoints])
      else if m.mode = InteractionMode.rectangle then
        match m.startPoint with
        | some start => (m, [.rectangleComplete start canvasPoint])
        | none => (m, [])
      else (m, [])
    ({ pair.1 with
        isActive := false
        draggedElement := none
        dragOffset := none },
     pair.2)

def getSelectedElement (m : InteractionManager) : Option IElem :=
  m.selectedElement

/-- One raw pointer/mode input, as delivered by the UI shell. -/
inductive IMInput where
  | mouseDown (x y : ℚ)
  | mouseMove (x y : ℚ)
  | mouseUp (x y : ℚ)
  | setMode (mode : InteractionMode)
deriving DecidableEq, Repr

def step (m : InteractionManager) : IMInput → InteractionManager × List IMEvent
  | .mouseDown x y => m.handleMouseDown x y
  | .mouseMove x y => m.handleMouseMove x y
  | .mouseUp x y => m.handleMouseUp x y
  | .setMode mode => m.setMode mode

/-- Run a sequence of inputs, collecting the notifications in order. -/
def run (m : InteractionManager) : List IMInput → InteractionManager × List IMEvent
  | [] => (m, [])
  | i :: is =>
      let r := step m i
      let r2 := run r.1 is
      (r2.1, r.2 ++ r2.2)

end InteractionManager

/-! ## `CanvasEngine.handleWheel` (CanvasEngine.ts)

`mouse` is the already-normalized screen point (`clientX - rect.left`,
`clientY - rect.top`). -/

namespace CanvasEngine

def handleWheel (t : Transform) (mouse : Point) (deltaY : ℚ) : Transform :=
  let canvasX := (mouse.x - t.translateX) / t.scaleX
  let canvasY := (mouse.y - t.translateY) / t.scaleY
  let zoomFactor : ℚ := if 0 < deltaY then 0.9 else 1.1
  let minScale : ℚ := 0.1
  let maxScale : ℚ := 10
  let newScaleX := max minScale (min maxScale (t.scaleX * zoomFactor))
  let newScaleY := max minScale (min maxScale (t.scaleY * zoomFactor))
  { scaleX := newScaleX
    scaleY := newScaleY
    translateX := mouse.x - canvasX * newScaleX
    translateY := mouse.y - canvasY * newScaleY }

end CanvasEngine

/-! ## Helper lemmas and concrete fixtures for the claims -/

/-- Unfolding lemmas connecting the `SpatialIndex` wrappers to the root. -/
theorem SpatialIndex.query_def {α : Type} [Shape α] (si : SpatialIndex α)
    (bounds : BoundingBox) : si.query bounds = si.root.query bounds := rfl

theorem SpatialIndex.queryPoint_def {α : Type} [Shape α] (si : SpatialIndex α)
    (point : Point) : si.queryPoint point = si.root.queryPoint point := rfl

/-- Injectivity of `id` on a list follows from `Nodup` of the mapped ids. -/
theorem id_inj_of_map_nodup {α : Type} [Shape α] {S : List α}
    (h : (S.map Shape.id).Nodup) :
    ∀ x ∈ S, ∀ y ∈ S, Shape.id x = Shape.id y → x = y := by
  induction S with
  | nil => simp
  | cons a S ih =>
    rw [List.map_cons, List.nodup_cons] at h
    obtain ⟨ha, hnd⟩ := h
    intro x hx y hy hxy
    rcases List.mem_cons.1 hx with rfl | hx2 <;> rcases List.mem_cons.1 hy with rfl | hy2
    · rfl
    · exfalso
      apply ha
      rw [hxy]
      exact List.mem_map_of_mem Shape.id hy2
    · exfalso
      apply ha
      rw [← hxy]
      exact List.mem_map_of_mem Shape.id hx2
    · exact ih hnd x hx2 y hy2 hxy

/-- A rectangle element fixture. -/
def rectElem (id : String) (x y w h : ℚ) : IElem :=
  .rect ⟨id, x, y, w, h, ⟨some 2⟩, false⟩

/-- `Path.calculateCenter` from `Path.ts`. -/
def pathCenter (points : List Point) : Point :=
  match points with
  | [] => ⟨0, 0⟩
  | _ :: _ =>
      let sum := points.foldl (fun acc q => Point.mk (acc.x + q.x) (acc.y + q.y)) ⟨0, 0⟩
      ⟨sum.x / points.length, sum.y / points.length⟩

/-- A path element fixture, built the way the `Path` constructor does. -/
def mkPathElem (id : String) (points : List Point) : IElem :=
  .path ⟨id, points, (pathCenter points).x, (pathCenter points).y, ⟨some 2⟩, false⟩

/-! ## Claims -/

/-- C3 (amended): `QuadTreeNode.remove` removes the element's occurrence
from every leaf that references it (the content characterization of the
resulting tree is the history with the element erased) and returns `true`
exactly when at least one leaf referenced the element; `SpatialIndex.remove`
applies that removal to the root but returns no value (`void`), so at this
level the missing-shape case is a silent no-op, not a fault. -/
theorem C3_remove_reports_removal {α : Type} [Shape α] [DecidableEq α]
    (si : SpatialIndex α) (S : List α) (e : α) (h : SpatialIndex.WF si S) :
    ((si.root.remove e).2 = true ↔ e ∈ QuadTreeNode.elems si.root) ∧
    (si.remove e).root = (si.root.remove e).1 ∧
    SpatialIndex.removeReturn si e = () ∧
    SpatialIndex.WF (si.remove e) (S.erase e) :=
  ⟨QuadTreeNode.remove_snd_iff h.1 h.2, rfl, rfl, SpatialIndex.WF_remove e h⟩

/-- Fixtures for concrete witnesses: a small universe holding one
rectangle. -/
def wElemA : IElem := rectElem "a" 1 1 2 2

def wBounds : BoundingBox := ⟨0, 0, 100, 100⟩

def wSi : SpatialIndex IElem := (SpatialIndex.create wBounds).insert wElemA

theorem wSi_WF : SpatialIndex.WF wSi [wElemA] := by
  have := SpatialIndex.WF_insert wElemA
    (@SpatialIndex.WF_create IElem _ _ wBounds (by norm_num [wBounds]) (by norm_num [wBounds]))
  simpa [wSi] using this

/-- Witness for C3 at a concrete index holding one rectangle. -/
theorem C3_remove_reports_removal_witness :
    ((wSi.root.remove wElemA).2 = true ↔ wElemA ∈ QuadTreeNode.elems wSi.root) ∧
    (wSi.remove wElemA).root = (wSi.root.remove wElemA).1 ∧
    SpatialIndex.removeReturn wSi wElemA = () ∧
    SpatialIndex.WF (wSi.remove wElemA) ([wElemA].erase wElemA) :=
  C3_remove_reports_removal wSi [wElemA] wElemA wSi_WF

/-- C4 counterexample: the claim fails when the same shape was indexed
twice.  Inserting the rectangle twice, removing it once, then querying the
whole universe still returns the shape. -/
theorem C4_counterexample :
    ((((SpatialIndex.create wBounds).insert wElemA).insert wElemA).remove
      wElemA).query wBounds = [wElemA] := by
  have h1 : (((SpatialIndex.create wBounds).insert wElemA).insert wElemA).root =
      QuadTreeNode.insertF 6 (QuadTreeNode.insertF 6
        (QuadTreeNode.leaf wBounds 0 []) wElemA) wElemA := rfl
  have hInt : rectsIntersect wBounds (Shape.getBoundingBox wElemA) = true := by
    norm_num [wBounds, wElemA, rectElem, rectsIntersect, Shape.getBoundingBox,
      IElem.getBoundingBox, Rectangle.getBoundingBox]
  have h2 : (((SpatialIndex.create wBounds).insert wElemA).insert wElemA).root =
      QuadTreeNode.leaf wBounds 0 [wElemA, wElemA] := by
    rw [h1, QuadTreeNode.insertF_leaf_no_split hInt (by decide),
      QuadTreeNode.insertF_leaf_no_split hInt (by decide)]
    simp
  show ((((SpatialIndex.create wBounds).insert wElemA).insert
      wElemA).root.remove wElemA).1.query wBounds = [wElemA]
  rw [h2, QuadTreeNode.remove, if_pos hInt, if_pos (by simp)]
  have h3 : [wElemA, wElemA].erase wElemA = [wElemA] := by
    simp [List.erase_cons]
  rw [h3, QuadTreeNode.query, if_pos (by
    norm_num [wBounds, rectsIntersect])]
  have h4 : List.filter (fun e => rectsIntersect wBounds (Shape.getBoundingBox e))
      [wElemA] = [wElemA] := by
    simp [hInt]
  rw [h4]
  rfl

/-- C4 (amended): provided the shape was indexed at most once, after
`remove` no `query` and no `queryPoint` returns it, for any region or
point. -/
theorem C4_remove_then_query {α : Type} [Shape α] [DecidableEq α]
    (si : SpatialIndex α) (S : List α) (e : α)
    (h : SpatialIndex.WF si S) (hcount : S.count e ≤ 1) :
    (∀ R, e ∉ (si.remove e).query R) ∧ (∀ p, (si.remove e).queryPoint p ≠ some e) := by
  have h2 := SpatialIndex.WF_remove e h
  have he : e ∉ S.erase e := by
    have h0 : (S.erase e).count e = 0 := by
      rw [List.count_erase_self]
      omega
    exact List.count_eq_zero.1 h0
  constructor
  · intro R hmem
    rw [SpatialIndex.query_def] at hmem
    exact he (QuadTreeNode.query_subset h2.2 e hmem)
  · intro p hq
    rw [SpatialIndex.queryPoint_def] at hq
    exact he (QuadTreeNode.queryPoint_subset h2.2 hq)

/-- Witness for C4: one rectangle inserted once, then removed. -/
theorem C4_remove_then_query_witness :
    (∀ R, wElemA ∉ (wSi.remove wElemA).query R) ∧
    (∀ p, (wSi.remove wElemA).queryPoint p ≠ some wElemA) :=
  C4_remove_then_query wSi [wElemA] wElemA wSi_WF (by simp)

/-- C5: a wheel event multiplies each scale component by 0.9 (wheel down,
zoom out) or 1.1 (otherwise, zoom in), clamps it to [0.1, 10], and the
canvas-space point that was under the screen point before the zoom maps back
to exactly that screen point under the new transform, also when clamping is
active. -/
theorem C5_wheel_zoom_fixed_point (t : Transform) (s : Point) (deltaY : ℚ)
    (hsx : t.scaleX ≠ 0) (hsy : t.scaleY ≠ 0) :
    (CanvasEngine.handleWheel t s deltaY).scaleX =
      max 0.1 (min 10 (t.scaleX * (if 0 < deltaY then 0.9 else 1.1))) ∧
    (CanvasEngine.handleWheel t s deltaY).scaleY =
      max 0.1 (min 10 (t.scaleY * (if 0 < deltaY then 0.9 else 1.1))) ∧
    applyTransform (applyInverseTransform s t) (CanvasEngine.handleWheel t s deltaY) = s := by
  refine ⟨rfl, rfl, ?_⟩
  obtain ⟨sx, sy⟩ := s
  simp only [CanvasEngine.handleWheel, applyInverseTransform, applyTransform,
    Point.mk.injEq]
  constructor <;> ring

/-- Witness for C5 at a concrete transform, screen point and wheel delta. -/
theorem C5_wheel_zoom_fixed_point_witness :
    (CanvasEngine.handleWheel ⟨2, 2, 5, 5⟩ ⟨100, 50⟩ (-3)).scaleX =
      max 0.1 (min 10 ((2 : ℚ) * (if (0 : ℚ) < -3 then 0.9 else 1.1))) ∧
    (CanvasEngine.handleWheel ⟨2, 2, 5, 5⟩ ⟨100, 50⟩ (-3)).scaleY =
      max 0.1 (min 10 ((2 : ℚ) * (if (0 : ℚ) < -3 then 0.9 else 1.1))) ∧
    applyTransform (applyInverseTransform ⟨100, 50⟩ ⟨2, 2, 5, 5⟩)
      (CanvasEngine.handleWheel ⟨2, 2, 5, 5⟩ ⟨100, 50⟩ (-3)) = ⟨100, 50⟩ :=
  C5_wheel_zoom_fixed_point ⟨2, 2, 5, 5⟩ ⟨100, 50⟩ (-3) (by norm_num) (by norm_num)

/-- C8: in every index state reachable through the public API, every node is
either a leaf, or an internal node (four quadrant children by construction)
holding no elements of its own and sitting strictly below the maximum depth;
a leaf strictly below the maximum depth holds at most `maxElements = 10`
elements (it splits only when an insertion pushes it past the capacity); and
`remove` never merges children: the subdivision skeleton is unchanged. -/
theorem C8_structure_invariant {α : Type} [Shape α] [DecidableEq α]
    (si : SpatialIndex α) (h : SpatialIndex.Reachable si) :
    QuadTreeNode.nodeInvB si.root = true ∧
      ∀ e, QuadTreeNode.skel ((si.root.remove e).1) = QuadTreeNode.skel si.root :=
  ⟨SpatialIndex.nodeInv_reachable h, fun e => QuadTreeNode.skel_remove _ e⟩

/-- Witness for C8 at a concrete reachable state. -/
theorem C8_structure_invariant_witness :
    QuadTreeNode.nodeInvB
      (((SpatialIndex.create engineBounds : SpatialIndex IElem).insert
        (rectElem "a" 1 1 2 2)).root) = true ∧
      ∀ e, QuadTreeNode.skel
          ((((SpatialIndex.create engineBounds : SpatialIndex IElem).insert
            (rectElem "a" 1 1 2 2)).root.remove e).1) =
        QuadTreeNode.skel
          (((SpatialIndex.create engineBounds : SpatialIndex IElem).insert
            (rectElem "a" 1 1 2 2)).root) :=
  C8_structure_invariant _
    (SpatialIndex.Reachable.insert (rectElem "a" 1 1 2 2)
      (SpatialIndex.Reachable.create engineBounds))

/-- C9: a point outside the index's root bounds is never hit: `queryPoint`
returns null there, regardless of what is indexed — point hit testing is
confined to the indexed universe rectangle (`engineBounds`, x = y = -10000,
width = height = 20000, in the engine). -/
theorem C9_queryPoint_outside_root {α : Type} [Shape α] [DecidableEq α]
    (si : SpatialIndex α) (p : Point)
    (h : pointInRect p si.root.bounds = false) :
    si.queryPoint p = none := by
  rw [SpatialIndex.queryPoint_def]
  apply QuadTreeNode.queryPoint_none_of_not_mem
  rw [h]
  simp

/-- Witness for C9: over the engine's universe, a rectangle straddling the
root boundary contains a point just outside the universe, yet `queryPoint`
there returns null. -/
theorem C9_queryPoint_outside_root_witness :
    Shape.containsPoint (rectElem "a" (-10005) 0 10 10) ⟨-10002, 5⟩ = true ∧
    pointInRect ⟨-10002, 5⟩ engineBounds = false ∧
    ((SpatialIndex.create engineBounds : SpatialIndex IElem).insert
      (rectElem "a" (-10005) 0 10 10)).queryPoint ⟨-10002, 5⟩ = none :=
  ⟨by norm_num [Shape.containsPoint, IElem.containsPoint, Rectangle.containsPoint,
      rectElem],
   by norm_num [pointInRect, engineBounds],
   C9_queryPoint_outside_root _ _ (by
    rw [SpatialIndex.root_bounds_insert]
    norm_num [SpatialIndex.create, QuadTreeNode.bounds, pointInRect, engineBounds])⟩

/-- C10: `ElementManager.add` performs no duplicate-id check: adding two
elements with the same id leaves the id twice in the draw order and
`getAll` returns the second (map-stored) element twice; one `remove(id)`
then returns true and the element disappears from all `getAll` results. -/
theorem C10_duplicate_id_add {α : Type} [Shape α] [DecidableEq α]
    (si : SpatialIndex α) (e1 e2 : α) (hid : Shape.id e2 = Shape.id e1) :
    (((ElementManager.create si).add e1).add e2).zIndexOrder =
      [Shape.id e1, Shape.id e1] ∧
    (((ElementManager.create si).add e1).add e2).getAll = [e2, e2] ∧
    ((((ElementManager.create si).add e1).add e2).remove (Shape.id e1)).2 = true ∧
    (((((ElementManager.create si).add e1).add e2).remove (Shape.id e1)).1).getAll = [] := by
  refine ⟨?_, ?_, ?_, ?_⟩ <;>
    simp [ElementManager.create, ElementManager.add, ElementManager.getAll,
      ElementManager.remove, mapSet, mapGet, mapDelete, hid, List.filterMap,
      List.erase_cons]

/-- Witness for C10 with two concrete rectangles sharing an id. -/
theorem C10_duplicate_id_add_witness :
    ((((ElementManager.create (SpatialIndex.create ⟨0, 0, 100, 100⟩ :
        SpatialIndex IElem)).add (rectElem "a" 1 1 2 2)).add
        (rectElem "a" 5 5 2 2)).zIndexOrder =
      [Shape.id (rectElem "a" 1 1 2 2), Shape.id (rectElem "a" 1 1 2 2)]) ∧
    ((((ElementManager.create (SpatialIndex.create ⟨0, 0, 100, 100⟩ :
        SpatialIndex IElem)).add (rectElem "a" 1 1 2 2)).add
        (rectElem "a" 5 5 2 2)).getAll = [rectElem "a" 5 5 2 2, rectElem "a" 5 5 2 2]) ∧
    (((((ElementManager.create (SpatialIndex.create ⟨0, 0, 100, 100⟩ :
        SpatialIndex IElem)).add (rectElem "a" 1 1 2 2)).add
        (rectElem "a" 5 5 2 2)).remove (Shape.id (rectElem "a" 1 1 2 2))).2 = true) ∧
    ((((((ElementManager.create (SpatialIndex.create ⟨0, 0, 100, 100⟩ :
        SpatialIndex IElem)).add (rectElem "a" 1 1 2 2)).add
        (rectElem "a" 5 5 2 2)).remove
        (Shape.id (rectElem "a" 1 1 2 2))).1).getAll = []) :=
  C10_duplicate_id_add _ (rectElem "a" 1 1 2 2) (rectElem "a" 5 5 2 2) rfl


/-- C1 counterexample: `query` prunes any subtree whose bounds do not
intersect the region, including the root.  A shape whose bounding box
intersects the root bounds and the query region is still missed when the
region itself does not intersect the root bounds. -/
theorem C1_counterexample :
    rectsIntersect (Shape.getBoundingBox (rectElem "s" (-10) 0 10 10)) wBounds = true ∧
    rectsIntersect ⟨-10, 0, 5, 5⟩ (Shape.getBoundingBox (rectElem "s" (-10) 0 10 10)) = true ∧
    ((SpatialIndex.create wBounds).insert (rectElem "s" (-10) 0 10 10)).query
      ⟨-10, 0, 5, 5⟩ = [] := by
  refine ⟨?_, ?_, ?_⟩
  · norm_num [wBounds, rectElem, rectsIntersect, Shape.getBoundingBox,
      IElem.getBoundingBox, Rectangle.getBoundingBox]
  · norm_num [rectElem, rectsIntersect, Shape.getBoundingBox,
      IElem.getBoundingBox, Rectangle.getBoundingBox]
  · have h1 : ((SpatialIndex.create wBounds).insert (rectElem "s" (-10) 0 10 10)).root =
        QuadTreeNode.insertF 6 (QuadTreeNode.leaf wBounds 0 [])
          (rectElem "s" (-10) 0 10 10) := rfl
    show ((SpatialIndex.create wBounds).insert
        (rectElem "s" (-10) 0 10 10)).root.query ⟨-10, 0, 5, 5⟩ = []
    rw [h1, QuadTreeNode.insertF_leaf_no_split (by
      norm_num [wBounds, rectElem, rectsIntersect, Shape.getBoundingBox,
        IElem.getBoundingBox, Rectangle.getBoundingBox]) (by decide)]
    rw [QuadTreeNode.query, if_neg (by
      norm_num [wBounds, rectsIntersect])]

/-- C1 (amended): for every insertion history `S` of shapes with pairwise
distinct ids, nonnegative bounding-box dimensions and bounds intersecting
the root bounds, and every query region with nonnegative dimensions that
intersects the root bounds, `query` returns exactly the inserted shapes
whose bounding boxes intersect the region, each exactly once. -/
theorem C1_query_exactness {α : Type} [Shape α] [DecidableEq α]
    (b : BoundingBox) (S : List α) (R : BoundingBox)
    (hidS : (S.map Shape.id).Nodup)
    (hdim : ∀ x ∈ S, 0 ≤ (Shape.getBoundingBox x).width ∧
      0 ≤ (Shape.getBoundingBox x).height)
    (hbw : 0 ≤ b.width) (hbh : 0 ≤ b.height)
    (hRw : 0 ≤ R.width) (hRh : 0 ≤ R.height) :
    (((SpatialIndex.create b).insertAll S).query R).Nodup ∧
      ∀ e, e ∈ ((SpatialIndex.create b).insertAll S).query R ↔
        e ∈ S ∧ rectsIntersect R (Shape.getBoundingBox e) = true ∧
        rectsIntersect (Shape.getBoundingBox e) b = true ∧
        rectsIntersect b R = true := by
  have hwf := SpatialIndex.WF_insertAll S
    (@SpatialIndex.WF_create α _ _ b hbw hbh)
  rw [List.nil_append] at hwf
  have hb : ((SpatialIndex.create b).insertAll S).root.bounds = b := by
    rw [SpatialIndex.root_bounds_insertAll]
    rfl
  have h := QuadTreeNode.query_spec hwf.1 hwf.2 (id_inj_of_map_nodup hidS)
    hdim hRw hRh
  rw [hb] at h
  rw [SpatialIndex.query_def]
  exact h

/-- Witness for C1 at the spec's three-rectangle scenario. -/
theorem C1_query_exactness_witness :
    (((SpatialIndex.create wBounds).insertAll
        [rectElem "A" 0 0 10 10, rectElem "B" 5 5 10 10,
          rectElem "C" 100 100 10 10]).query ⟨0, 0, 20, 20⟩).Nodup ∧
      ∀ e, e ∈ ((SpatialIndex.create wBounds).insertAll
          [rectElem "A" 0 0 10 10, rectElem "B" 5 5 10 10,
            rectElem "C" 100 100 10 10]).query ⟨0, 0, 20, 20⟩ ↔
        e ∈ [rectElem "A" 0 0 10 10, rectElem "B" 5 5 10 10,
          rectElem "C" 100 100 10 10] ∧
        rectsIntersect ⟨0, 0, 20, 20⟩ (Shape.getBoundingBox e) = true ∧
        rectsIntersect (Shape.getBoundingBox e) wBounds = true ∧
        rectsIntersect wBounds ⟨0, 0, 20, 20⟩ = true :=
  C1_query_exactness wBounds _ _ (by decide)
    (by
      intro x hx
      fin_cases hx <;>
        norm_num [rectElem, Shape.getBoundingBox, IElem.getBoundingBox,
          Rectangle.getBoundingBox])
    (by norm_num [wBounds]) (by norm_num [wBounds]) (by norm_num) (by norm_num)


/-! ### C2 fixtures: a path whose hit-test tolerance (2 x strokeWidth)
exceeds its bounding-box padding (strokeWidth / 2), plus enough small
rectangles to force one split of the root. -/

def c2B : BoundingBox := ⟨0, 0, 50, 50⟩

def c2Path : IElem := mkPathElem "P" [⟨47/2, 0⟩, ⟨47/2, 20⟩]

def c2t0 : IElem := rectElem "t0" 2 2 1 1
def c2t1 : IElem := rectElem "t1" 2 3 1 1
def c2t2 : IElem := rectElem "t2" 2 4 1 1
def c2t3 : IElem := rectElem "t3" 2 5 1 1
def c2t4 : IElem := rectElem "t4" 2 6 1 1
def c2b0 : IElem := rectElem "b0" 2 30 1 1
def c2b1 : IElem := rectElem "b1" 2 31 1 1
def c2b2 : IElem := rectElem "b2" 2 32 1 1
def c2b3 : IElem := rectElem "b3" 2 33 1 1
def c2b4 : IElem := rectElem "b4" 2 34 1 1

def c2S : List IElem := [c2Path, c2t0, c2t1, c2t2, c2t3, c2t4, c2b0, c2b1, c2b2, c2b3, c2b4]

def c2Index : SpatialIndex IElem := (SpatialIndex.create c2B).insertAll c2S

def c2p : Point := ⟨26, 10⟩


/-- Redistribution of the eleven elements into the TL child. -/
theorem c2foldTL :
    List.foldl (QuadTreeNode.insertF 5)
      (QuadTreeNode.leaf (QuadTreeNode.quadTL c2B) (0 + 1) ([] : List IElem))
      [c2Path, c2t0, c2t1, c2t2, c2t3, c2t4, c2b0, c2b1, c2b2, c2b3, c2b4] =
    QuadTreeNode.leaf (QuadTreeNode.quadTL c2B) (0 + 1) [c2Path, c2t0, c2t1, c2t2, c2t3, c2t4] := by
  rw [List.foldl_cons, QuadTreeNode.insertF_leaf_no_split (by
    norm_num [c2B, c2Path, c2t0, c2t1, c2t2, c2t3, c2t4, c2b0, c2b1, c2b2, c2b3,
      c2b4, rectElem, mkPathElem, pathCenter, rectsIntersect,
      Shape.getBoundingBox, IElem.getBoundingBox, Rectangle.getBoundingBox,
      PathElem.getBoundingBox, ElementStyle.strokeWidthOr2,
      QuadTreeNode.quadTL, QuadTreeNode.quadTR, QuadTreeNode.quadBL,
      QuadTreeNode.quadBR, min_def, max_def]) (by decide)]
  rw [List.foldl_cons, QuadTreeNode.insertF_leaf_no_split (by
    norm_num [c2B, c2Path, c2t0, c2t1, c2t2, c2t3, c2t4, c2b0, c2b1, c2b2, c2b3,
      c2b4, rectElem, mkPathElem, pathCenter, rectsIntersect,
      Shape.getBoundingBox, IElem.getBoundingBox, Rectangle.getBoundingBox,
      PathElem.getBoundingBox, ElementStyle.strokeWidthOr2,
      QuadTreeNode.quadTL, QuadTreeNode.quadTR, QuadTreeNode.quadBL,
      QuadTreeNode.quadBR, min_def, max_def]) (by decide)]
  rw [List.foldl_cons, QuadTreeNode.insertF_leaf_no_split (by
    norm_num [c2B, c2Path, c2t0, c2t1, c2t2, c2t3, c2t4, c2b0, c2b1, c2b2, c2b3,
      c2b4, rectElem, mkPathElem, pathCenter, rectsIntersect,
      Shape.getBoundingBox, IElem.getBoundingBox, Rectangle.getBoundingBox,
      PathElem.getBoundingBox, ElementStyle.strokeWidthOr2,
      QuadTreeNode.quadTL, QuadTreeNode.quadTR, QuadTreeNode.quadBL,
      QuadTreeNode.quadBR, min_def, max_def]) (by decide)]
  rw [List.foldl_cons, QuadTreeNode.insertF_leaf_no_split (by
    norm_num [c2B, c2Path, c2t0, c2t1, c2t2, c2t3, c2t4, c2b0, c2b1, c2b2, c2b3,
      c2b4, rectElem, mkPathElem, pathCenter, rectsIntersect,
      Shape.getBoundingBox, IElem.getBoundingBox, Rectangle.getBoundingBox,
      PathElem.getBoundingBox, ElementStyle.strokeWidthOr2,
      QuadTreeNode.quadTL, QuadTreeNode.quadTR, QuadTreeNode.quadBL,
      QuadTreeNode.quadBR, min_def, max_def]) (by decide)]
  rw [List.foldl_cons, QuadTreeNode.insertF_leaf_no_split (by
    norm_num [c2B, c2Path, c2t0, c2t1, c2t2, c2t3, c2t4, c2b0, c2b1, c2b2, c2b3,
      c2b4, rectElem, mkPathElem, pathCenter, rectsIntersect,
      Shape.getBoundingBox, IElem.getBoundingBox, Rectangle.getBoundingBox,
      PathElem.getBoundingBox, ElementStyle.strokeWidthOr2,
      QuadTreeNode.quadTL, QuadTreeNode.quadTR, QuadTreeNode.quadBL,
      QuadTreeNode.quadBR, min_def, max_def]) (by decide)]
  rw [List.foldl_cons, QuadTreeNode.insertF_leaf_no_split (by
    norm_num [c2B, c2Path, c2t0, c2t1, c2t2, c2t3, c2t4, c2b0, c2b1, c2b2, c2b3,
      c2b4, rectElem, mkPathElem, pathCenter, rectsIntersect,
      Shape.getBoundingBox, IElem.getBoundingBox, Rectangle.getBoundingBox,
      PathElem.getBoundingBox, ElementStyle.strokeWidthOr2,
      QuadTreeNode.quadTL, QuadTreeNode.quadTR, QuadTreeNode.quadBL,
      QuadTreeNode.quadBR, min_def, max_def]) (by decide)]
  rw [List.foldl_cons, QuadTreeNode.insertF_leaf_not_inter (by
    norm_num [c2B, c2Path, c2t0, c2t1, c2t2, c2t3, c2t4, c2b0, c2b1, c2b2, c2b3,
      c2b4, rectElem, mkPathElem, pathCenter, rectsIntersect,
      Shape.getBoundingBox, IElem.getBoundingBox, Rectangle.getBoundingBox,
      PathElem.getBoundingBox, ElementStyle.strokeWidthOr2,
      QuadTreeNode.quadTL, QuadTreeNode.quadTR, QuadTreeNode.quadBL,
      QuadTreeNode.quadBR, min_def, max_def])]
  rw [List.foldl_cons, QuadTreeNode.insertF_leaf_not_inter (by
    norm_num [c2B, c2Path, c2t0, c2t1, c2t2, c2t3, c2t4, c2b0, c2b1, c2b2, c2b3,
      c2b4, rectElem, mkPathElem, pathCenter, rectsIntersect,
      Shape.getBoundingBox, IElem.getBoundingBox, Rectangle.getBoundingBox,
      PathElem.getBoundingBox, ElementStyle.strokeWidthOr2,
      QuadTreeNode.quadTL, QuadTreeNode.quadTR, QuadTreeNode.quadBL,
      QuadTreeNode.quadBR, min_def, max_def])]
  rw [List.foldl_cons, QuadTreeNode.insertF_leaf_not_inter (by
    norm_num [c2B, c2Path, c2t0, c2t1, c2t2, c2t3, c2t4, c2b0, c2b1, c2b2, c2b3,
      c2b4, rectElem, mkPathElem, pathCenter, rectsIntersect,
      Shape.getBoundingBox, IElem.getBoundingBox, Rectangle.getBoundingBox,
      PathElem.getBoundingBox, ElementStyle.strokeWidthOr2,
      QuadTreeNode.quadTL, QuadTreeNode.quadTR, QuadTreeNode.quadBL,
      QuadTreeNode.quadBR, min_def, max_def])]
  rw [List.foldl_cons, QuadTreeNode.insertF_leaf_not_inter (by
    norm_num [c2B, c2Path, c2t0, c2t1, c2t2, c2t3, c2t4, c2b0, c2b1, c2b2, c2b3,
      c2b4, rectElem, mkPathElem, pathCenter, rectsIntersect,
      Shape.getBoundingBox, IElem.getBoundingBox, Rectangle.getBoundingBox,
      PathElem.getBoundingBox, ElementStyle.strokeWidthOr2,
      QuadTreeNode.quadTL, QuadTreeNode.quadTR, QuadTreeNode.quadBL,
      QuadTreeNode.quadBR, min_def, max_def])]
  rw [List.foldl_cons, QuadTreeNode.insertF_leaf_not_inter (by
    norm_num [c2B, c2Path, c2t0, c2t1, c2t2, c2t3, c2t4, c2b0, c2b1, c2b2, c2b3,
      c2b4, rectElem, mkPathElem, pathCenter, rectsIntersect,
      Shape.getBoundingBox, IElem.getBoundingBox, Rectangle.getBoundingBox,
      PathElem.getBoundingBox, ElementStyle.strokeWidthOr2,
      QuadTreeNode.quadTL, QuadTreeNode.quadTR, QuadTreeNode.quadBL,
      QuadTreeNode.quadBR, min_def, max_def])]
  rw [List.foldl_nil]
  simp


/-- Redistribution of the eleven elements into the TR child. -/
theorem c2foldTR :
    List.foldl (QuadTreeNode.insertF 5)
      (QuadTreeNode.leaf (QuadTreeNode.quadTR c2B) (0 + 1) ([] : List IElem))
      [c2Path, c2t0, c2t1, c2t2, c2t3, c2t4, c2b0, c2b1, c2b2, c2b3, c2b4] =
    QuadTreeNode.leaf (QuadTreeNode.quadTR c2B) (0 + 1) ([] : List IElem) := by
  rw [List.foldl_cons, QuadTreeNode.insertF_leaf_not_inter (by
    norm_num [c2B, c2Path, c2t0, c2t1, c2t2, c2t3, c2t4, c2b0, c2b1, c2b2, c2b3,
      c2b4, rectElem, mkPathElem, pathCenter, rectsIntersect,
      Shape.getBoundingBox, IElem.getBoundingBox, Rectangle.getBoundingBox,
      PathElem.getBoundingBox, ElementStyle.strokeWidthOr2,
      QuadTreeNode.quadTL, QuadTreeNode.quadTR, QuadTreeNode.quadBL,
      QuadTreeNode.quadBR, min_def, max_def])]
  rw [List.foldl_cons, QuadTreeNode.insertF_leaf_not_inter (by
    norm_num [c2B, c2Path, c2t0, c2t1, c2t2, c2t3, c2t4, c2b0, c2b1, c2b2, c2b3,
      c2b4, rectElem, mkPathElem, pathCenter, rectsIntersect,
      Shape.getBoundingBox, IElem.getBoundingBox, Rectangle.getBoundingBox,
      PathElem.getBoundingBox, ElementStyle.strokeWidthOr2,
      QuadTreeNode.quadTL, QuadTreeNode.quadTR, QuadTreeNode.quadBL,
      QuadTreeNode.quadBR, min_def, max_def])]
  rw [List.foldl_cons, QuadTreeNode.insertF_leaf_not_inter (by
    norm_num [c2B, c2Path, c2t0, c2t1, c2t2, c2t3, c2t4, c2b0, c2b1, c2b2, c2b3,
      c2b4, rectElem, mkPathElem, pathCenter, rectsIntersect,
      Shape.getBoundingBox, IElem.getBoundingBox, Rectangle.getBoundingBox,
      PathElem.getBoundingBox, ElementStyle.strokeWidthOr2,
      QuadTreeNode.quadTL, QuadTreeNode.quadTR, QuadTreeNode.quadBL,
      QuadTreeNode.quadBR, min_def, max_def])]
  rw [List.foldl_cons, QuadTreeNode.insertF_leaf_not_inter (by
    norm_num [c2B, c2Path, c2t0, c2t1, c2t2, c2t3, c2t4, c2b0, c2b1, c2b2, c2b3,
      c2b4, rectElem, mkPathElem, pathCenter, rectsIntersect,
      Shape.getBoundingBox, IElem.getBoundingBox, Rectangle.getBoundingBox,
      PathElem.getBoundingBox, ElementStyle.strokeWidthOr2,
      QuadTreeNode.quadTL, QuadTreeNode.quadTR, QuadTreeNode.quadBL,
      QuadTreeNode.quadBR, min_def, max_def])]
  rw [List.foldl_cons, QuadTreeNode.insertF_leaf_not_inter (by
    norm_num [c2B, c2Path, c2t0, c2t1, c2t2, c2t3, c2t4, c2b0, c2b1, c2b2, c2b3,
      c2b4, rectElem, mkPathElem, pathCenter, rectsIntersect,
      Shape.getBoundingBox, IElem.getBoundingBox, Rectangle.getBoundingBox,
      PathElem.getBoundingBox, ElementStyle.strokeWidthOr2,
      QuadTreeNode.quadTL, QuadTreeNode.quadTR, QuadTreeNode.quadBL,
      QuadTreeNode.quadBR, min_def, max_def])]
  rw [List.foldl_cons, QuadTreeNode.insertF_leaf_not_inter (by
    norm_num [c2B, c2Path, c2t0, c2t1, c2t2, c2t3, c2t4, c2b0, c2b1, c2b2, c2b3,
      c2b4, rectElem, mkPathElem, pathCenter, rectsIntersect,
      Shape.getBoundingBox, IElem.getBoundingBox, Rectangle.getBoundingBox,
      PathElem.getBoundingBox, ElementStyle.strokeWidthOr2,
      QuadTreeNode.quadTL, QuadTreeNode.quadTR, QuadTreeNode.quadBL,
      QuadTreeNode.quadBR, min_def, max_def])]
  rw [List.foldl_cons, QuadTreeNode.insertF_leaf_not_inter (by
    norm_num [c2B, c2Path, c2t0, c2t1, c2t2, c2t3, c2t4, c2b0, c2b1, c2b2, c2b3,
      c2b4, rectElem, mkPathElem, pathCenter, rectsIntersect,
      Shape.getBoundingBox, IElem.getBoundingBox, Rectangle.getBoundingBox,
      PathElem.getBoundingBox, ElementStyle.strokeWidthOr2,
      QuadTreeNode.quadTL, QuadTreeNode.quadTR, QuadTreeNode.quadBL,
      QuadTreeNode.quadBR, min_def, max_def])]
  rw [List.foldl_cons, QuadTreeNode.insertF_leaf_not_inter (by
    norm_num [c2B, c2Path, c2t0, c2t1, c2t2, c2t3, c2t4, c2b0, c2b1, c2b2, c2b3,
      c2b4, rectElem, mkPathElem, pathCenter, rectsIntersect,
      Shape.getBoundingBox, IElem.getBoundingBox, Rectangle.getBoundingBox,
      PathElem.getBoundingBox, ElementStyle.strokeWidthOr2,
      QuadTreeNode.quadTL, QuadTreeNode.quadTR, QuadTreeNode.quadBL,
      QuadTreeNode.quadBR, min_def, max_def])]
  rw [List.foldl_cons, QuadTreeNode.insertF_leaf_not_inter (by
    norm_num [c2B, c2Path, c2t0, c2t1, c2t2, c2t3, c2t4, c2b0, c2b1, c2b2, c2b3,
      c2b4, rectElem, mkPathElem, pathCenter, rectsIntersect,
      Shape.getBoundingBox, IElem.getBoundingBox, Rectangle.getBoundingBox,
      PathElem.getBoundingBox, ElementStyle.strokeWidthOr2,
      QuadTreeNode.quadTL, QuadTreeNode.quadTR, QuadTreeNode.quadBL,
      QuadTreeNode.quadBR, min_def, max_def])]
  rw [List.foldl_cons, QuadTreeNode.insertF_leaf_not_inter (by
    norm_num [c2B, c2Path, c2t0, c2t1, c2t2, c2t3, c2t4, c2b0, c2b1, c2b2, c2b3,
      c2b4, rectElem, mkPathElem, pathCenter, rectsIntersect,
      Shape.getBoundingBox, IElem.getBoundingBox, Rectangle.getBoundingBox,
      PathElem.getBoundingBox, ElementStyle.strokeWidthOr2,
      QuadTreeNode.quadTL, QuadTreeNode.quadTR, QuadTreeNode.quadBL,
      QuadTreeNode.quadBR, min_def, max_def])]
  rw [List.foldl_cons, QuadTreeNode.insertF_leaf_not_inter (by
    norm_num [c2B, c2Path, c2t0, c2t1, c2t2, c2t3, c2t4, c2b0, c2b1, c2b2, c2b3,
      c2b4, rectElem, mkPathElem, pathCenter, rectsIntersect,
      Shape.getBoundingBox, IElem.getBoundingBox, Rectangle.getBoundingBox,
      PathElem.getBoundingBox, ElementStyle.strokeWidthOr2,
      QuadTreeNode.quadTL, QuadTreeNode.quadTR, QuadTreeNode.quadBL,
      QuadTreeNode.quadBR, min_def, max_def])]
  rw [List.foldl_nil]


/-- Redistribution of the eleven elements into the BL child. -/
theorem c2foldBL :
    List.foldl (QuadTreeNode.insertF 5)
      (QuadTreeNode.leaf (QuadTreeNode.quadBL c2B) (0 + 1) ([] : List IElem))
      [c2Path, c2t0, c2t1, c2t2, c2t3, c2t4, c2b0, c2b1, c2b2, c2b3, c2b4] =
    QuadTreeNode.leaf (QuadTreeNode.quadBL c2B) (0 + 1) [c2b0, c2b1, c2b2, c2b3, c2b4] := by
  rw [List.foldl_cons, QuadTreeNode.insertF_leaf_not_inter (by
    norm_num [c2B, c2Path, c2t0, c2t1, c2t2, c2t3, c2t4, c2b0, c2b1, c2b2, c2b3,
      c2b4, rectElem, mkPathElem, pathCenter, rectsIntersect,
      Shape.getBoundingBox, IElem.getBoundingBox, Rectangle.getBoundingBox,
      PathElem.getBoundingBox, ElementStyle.strokeWidthOr2,
      QuadTreeNode.quadTL, QuadTreeNode.quadTR, QuadTreeNode.quadBL,
      QuadTreeNode.quadBR, min_def, max_def])]
  rw [List.foldl_cons, QuadTreeNode.insertF_leaf_not_inter (by
    norm_num [c2B, c2Path, c2t0, c2t1, c2t2, c2t3, c2t4, c2b0, c2b1, c2b2, c2b3,
      c2b4, rectElem, mkPathElem, pathCenter, rectsIntersect,
      Shape.getBoundingBox, IElem.getBoundingBox, Rectangle.getBoundingBox,
      PathElem.getBoundingBox, ElementStyle.strokeWidthOr2,
      QuadTreeNode.quadTL, QuadTreeNode.quadTR, QuadTreeNode.quadBL,
      QuadTreeNode.quadBR, min_def, max_def])]
  rw [List.foldl_cons, QuadTreeNode.insertF_leaf_not_inter (by
    norm_num [c2B, c2Path, c2t0, c2t1, c2t2, c2t3, c2t4, c2b0, c2b1, c2b2, c2b3,
      c2b4, rectElem, mkPathElem, pathCenter, rectsIntersect,
      Shape.getBoundingBox, IElem.getBoundingBox, Rectangle.getBoundingBox,
      PathElem.getBoundingBox, ElementStyle.strokeWidthOr2,
      QuadTreeNode.quadTL, QuadTreeNode.quadTR, QuadTreeNode.quadBL,
      QuadTreeNode.quadBR, min_def, max_def])]
  rw [List.foldl_cons, QuadTreeNode.insertF_leaf_not_inter (by
    norm_num [c2B, c2Path, c2t0, c2t1, c2t2, c2t3, c2t4, c2b0, c2b1, c2b2, c2b3,
      c2b4, rectElem, mkPathElem, pathCenter, rectsIntersect,
      Shape.getBoundingBox, IElem.getBoundingBox, Rectangle.getBoundingBox,
      PathElem.getBoundingBox, ElementStyle.strokeWidthOr2,
      QuadTreeNode.quadTL, QuadTreeNode.quadTR, QuadTreeNode.quadBL,
      QuadTreeNode.quadBR, min_def, max_def])]
  rw [List.foldl_cons, QuadTreeNode.insertF_leaf_not_inter (by
    norm_num [c2B, c2Path, c2t0, c2t1, c2t2, c2t3, c2t4, c2b0, c2b1, c2b2, c2b3,
      c2b4, rectElem, mkPathElem, pathCenter, rectsIntersect,
      Shape.getBoundingBox, IElem.getBoundingBox, Rectangle.getBoundingBox,
      PathElem.getBoundingBox, ElementStyle.strokeWidthOr2,
      QuadTreeNode.quadTL, QuadTreeNode.quadTR, QuadTreeNode.quadBL,
      QuadTreeNode.quadBR, min_def, max_def])]
  rw [List.foldl_cons, QuadTreeNode.insertF_leaf_not_inter (by
    norm_num [c2B, c2Path, c2t0, c2t1, c2t2, c2t3, c2t4, c2b0, c2b1, c2b2, c2b3,
      c2b4, rectElem, mkPathElem, pathCenter, rectsIntersect,
      Shape.getBoundingBox, IElem.getBoundingBox, Rectangle.getBoundingBox,
      PathElem.getBoundingBox, ElementStyle.strokeWidthOr2,
      QuadTreeNode.quadTL, QuadTreeNode.quadTR, QuadTreeNode.quadBL,
      QuadTreeNode.quadBR, min_def, max_def])]
  rw [List.foldl_cons, QuadTreeNode.insertF_leaf_no_split (by
    norm_num [c2B, c2Path, c2t0, c2t1, c2t2, c2t3, c2t4, c2b0, c2b1, c2b2, c2b3,
      c2b4, rectElem, mkPathElem, pathCenter, rectsIntersect,
      Shape.getBoundingBox, IElem.getBoundingBox, Rectangle.getBoundingBox,
      PathElem.getBoundingBox, ElementStyle.strokeWidthOr2,
      QuadTreeNode.quadTL, QuadTreeNode.quadTR, QuadTreeNode.quadBL,
      QuadTreeNode.quadBR, min_def, max_def]) (by decide)]
  rw [List.foldl_cons, QuadTreeNode.insertF_leaf_no_split (by
    norm_num [c2B, c2Path, c2t0, c2t1, c2t2, c2t3, c2t4, c2b0, c2b1, c2b2, c2b3,
      c2b4, rectElem, mkPathElem, pathCenter, rectsIntersect,
      Shape.getBoundingBox, IElem.getBoundingBox, Rectangle.getBoundingBox,
      PathElem.getBoundingBox, ElementStyle.strokeWidthOr2,
      QuadTreeNode.quadTL, QuadTreeNode.quadTR, QuadTreeNode.quadBL,
      QuadTreeNode.quadBR, min_def, max_def]) (by decide)]
  rw [List.foldl_cons, QuadTreeNode.insertF_leaf_no_split (by
    norm_num [c2B, c2Path, c2t0, c2t1, c2t2, c2t3, c2t4, c2b0, c2b1, c2b2, c2b3,
      c2b4, rectElem, mkPathElem, pathCenter, rectsIntersect,
      Shape.getBoundingBox, IElem.getBoundingBox, Rectangle.getBoundingBox,
      PathElem.getBoundingBox, ElementStyle.strokeWidthOr2,
      QuadTreeNode.quadTL, QuadTreeNode.quadTR, QuadTreeNode.quadBL,
      QuadTreeNode.quadBR, min_def, max_def]) (by decide)]
  rw [List.foldl_cons, QuadTreeNode.insertF_leaf_no_split (by
    norm_num [c2B, c2Path, c2t0, c2t1, c2t2, c2t3, c2t4, c2b0, c2b1, c2b2, c2b3,
      c2b4, rectElem, mkPathElem, pathCenter, rectsIntersect,
      Shape.getBoundingBox, IElem.getBoundingBox, Rectangle.getBoundingBox,
      PathElem.getBoundingBox, ElementStyle.strokeWidthOr2,
      QuadTreeNode.quadTL, QuadTreeNode.quadTR, QuadTreeNode.quadBL,
      QuadTreeNode.quadBR, min_def, max_def]) (by decide)]
  rw [List.foldl_cons, QuadTreeNode.insertF_leaf_no_split (by
    norm_num [c2B, c2Path, c2t0, c2t1, c2t2, c2t3, c2t4, c2b0, c2b1, c2b2, c2b3,
      c2b4, rectElem, mkPathElem, pathCenter, rectsIntersect,
      Shape.getBoundingBox, IElem.getBoundingBox, Rectangle.getBoundingBox,
      PathElem.getBoundingBox, ElementStyle.strokeWidthOr2,
      QuadTreeNode.quadTL, QuadTreeNode.quadTR, QuadTreeNode.quadBL,
      QuadTreeNode.quadBR, min_def, max_def]) (by decide)]
  rw [List.foldl_nil]
  simp


/-- Redistribution of the eleven elements into the BR child. -/
theorem c2foldBR :
    List.foldl (QuadTreeNode.insertF 5)
      (QuadTreeNode.leaf (QuadTreeNode.quadBR c2B) (0 + 1) ([] : List IElem))
      [c2Path, c2t0, c2t1, c2t2, c2t3, c2t4, c2b0, c2b1, c2b2, c2b3, c2b4] =
    QuadTreeNode.leaf (QuadTreeNode.quadBR c2B) (0 + 1) ([] : List IElem) := by
  rw [List.foldl_cons, QuadTreeNode.insertF_leaf_not_inter (by
    norm_num [c2B, c2Path, c2t0, c2t1, c2t2, c2t3, c2t4, c2b0, c2b1, c2b2, c2b3,
      c2b4, rectElem, mkPathElem, pathCenter, rectsIntersect,
      Shape.getBoundingBox, IElem.getBoundingBox, Rectangle.getBoundingBox,
      PathElem.getBoundingBox, ElementStyle.strokeWidthOr2,
      QuadTreeNode.quadTL, QuadTreeNode.quadTR, QuadTreeNode.quadBL,
      QuadTreeNode.quadBR, min_def, max_def])]
  rw [List.foldl_cons, QuadTreeNode.insertF_leaf_not_inter (by
    norm_num [c2B, c2Path, c2t0, c2t1, c2t2, c2t3, c2t4, c2b0, c2b1, c2b2, c2b3,
      c2b4, rectElem, mkPathElem, pathCenter, rectsIntersect,
      Shape.getBoundingBox, IElem.getBoundingBox, Rectangle.getBoundingBox,
      PathElem.getBoundingBox, ElementStyle.strokeWidthOr2,
      QuadTreeNode.quadTL, QuadTreeNode.quadTR, QuadTreeNode.quadBL,
      QuadTreeNode.quadBR, min_def, max_def])]
  rw [List.foldl_cons, QuadTreeNode.insertF_leaf_not_inter (by
    norm_num [c2B, c2Path, c2t0, c2t1, c2t2, c2t3, c2t4, c2b0, c2b1, c2b2, c2b3,
      c2b4, rectElem, mkPathElem, pathCenter, rectsIntersect,
      Shape.getBoundingBox, IElem.getBoundingBox, Rectangle.getBoundingBox,
      PathElem.getBoundingBox, ElementStyle.strokeWidthOr2,
      QuadTreeNode.quadTL, QuadTreeNode.quadTR, QuadTreeNode.quadBL,
      QuadTreeNode.quadBR, min_def, max_def])]
  rw [List.foldl_cons, QuadTreeNode.insertF_leaf_not_inter (by
    norm_num [c2B, c2Path, c2t0, c2t1, c2t2, c2t3, c2t4, c2b0, c2b1, c2b2, c2b3,
      c2b4, rectElem, mkPathElem, pathCenter, rectsIntersect,
      Shape.getBoundingBox, IElem.getBoundingBox, Rectangle.getBoundingBox,
      PathElem.getBoundingBox, ElementStyle.strokeWidthOr2,
      QuadTreeNode.quadTL, QuadTreeNode.quadTR, QuadTreeNode.quadBL,
      QuadTreeNode.quadBR, min_def, max_def])]
  rw [List.foldl_cons, QuadTreeNode.insertF_leaf_not_inter (by
    norm_num [c2B, c2Path, c2t0, c2t1, c2t2, c2t3, c2t4, c2b0, c2b1, c2b2, c2b3,
      c2b4, rectElem, mkPathElem, pathCenter, rectsIntersect,
      Shape.getBoundingBox, IElem.getBoundingBox, Rectangle.getBoundingBox,
      PathElem.getBoundingBox, ElementStyle.strokeWidthOr2,
      QuadTreeNode.quadTL, QuadTreeNode.quadTR, QuadTreeNode.quadBL,
      QuadTreeNode.quadBR, min_def, max_def])]
  rw [List.foldl_cons, QuadTreeNode.insertF_leaf_not_inter (by
    norm_num [c2B, c2Path, c2t0, c2t1, c2t2, c2t3, c2t4, c2b0, c2b1, c2b2, c2b3,
      c2b4, rectElem, mkPathElem, pathCenter, rectsIntersect,
      Shape.getBoundingBox, IElem.getBoundingBox, Rectangle.getBoundingBox,
      PathElem.getBoundingBox, ElementStyle.strokeWidthOr2,
      QuadTreeNode.quadTL, QuadTreeNode.quadTR, QuadTreeNode.quadBL,
      QuadTreeNode.quadBR, min_def, max_def])]
  rw [List.foldl_cons, QuadTreeNode.insertF_leaf_not_inter (by
    norm_num [c2B, c2Path, c2t0, c2t1, c2t2, c2t3, c2t4, c2b0, c2b1, c2b2, c2b3,
      c2b4, rectElem, mkPathElem, pathCenter, rectsIntersect,
      Shape.getBoundingBox, IElem.getBoundingBox, Rectangle.getBoundingBox,
      PathElem.getBoundingBox, ElementStyle.strokeWidthOr2,
      QuadTreeNode.quadTL, QuadTreeNode.quadTR, QuadTreeNode.quadBL,
      QuadTreeNode.quadBR, min_def, max_def])]
  rw [List.foldl_cons, QuadTreeNode.insertF_leaf_not_inter (by
    norm_num [c2B, c2Path, c2t0, c2t1, c2t2, c2t3, c2t4, c2b0, c2b1, c2b2, c2b3,
      c2b4, rectElem, mkPathElem, pathCenter, rectsIntersect,
      Shape.getBoundingBox, IElem.getBoundingBox, Rectangle.getBoundingBox,
      PathElem.getBoundingBox, ElementStyle.strokeWidthOr2,
      QuadTreeNode.quadTL, QuadTreeNode.quadTR, QuadTreeNode.quadBL,
      QuadTreeNode.quadBR, min_def, max_def])]
  rw [List.foldl_cons, QuadTreeNode.insertF_leaf_not_inter (by
    norm_num [c2B, c2Path, c2t0, c2t1, c2t2, c2t3, c2t4, c2b0, c2b1, c2b2, c2b3,
      c2b4, rectElem, mkPathElem, pathCenter, rectsIntersect,
      Shape.getBoundingBox, IElem.getBoundingBox, Rectangle.getBoundingBox,
      PathElem.getBoundingBox, ElementStyle.strokeWidthOr2,
      QuadTreeNode.quadTL, QuadTreeNode.quadTR, QuadTreeNode.quadBL,
      QuadTreeNode.quadBR, min_def, max_def])]
  rw [List.foldl_cons, QuadTreeNode.insertF_leaf_not_inter (by
    norm_num [c2B, c2Path, c2t0, c2t1, c2t2, c2t3, c2t4, c2b0, c2b1, c2b2, c2b3,
      c2b4, rectElem, mkPathElem, pathCenter, rectsIntersect,
      Shape.getBoundingBox, IElem.getBoundingBox, Rectangle.getBoundingBox,
      PathElem.getBoundingBox, ElementStyle.strokeWidthOr2,
      QuadTreeNode.quadTL, QuadTreeNode.quadTR, QuadTreeNode.quadBL,
      QuadTreeNode.quadBR, min_def, max_def])]
  rw [List.foldl_cons, QuadTreeNode.insertF_leaf_not_inter (by
    norm_num [c2B, c2Path, c2t0, c2t1, c2t2, c2t3, c2t4, c2b0, c2b1, c2b2, c2b3,
      c2b4, rectElem, mkPathElem, pathCenter, rectsIntersect,
      Shape.getBoundingBox, IElem.getBoundingBox, Rectangle.getBoundingBox,
      PathElem.getBoundingBox, ElementStyle.strokeWidthOr2,
      QuadTreeNode.quadTL, QuadTreeNode.quadTR, QuadTreeNode.quadBL,
      QuadTreeNode.quadBR, min_def, max_def])]
  rw [List.foldl_nil]


/-- The concrete quadtree built by the eleven insertions: one split, with
the path and the upper rectangles in TL, the lower rectangles in BL, and
empty TR/BR children. -/
theorem c2root : c2Index.root =
    QuadTreeNode.node c2B 0 []
      (QuadTreeNode.leaf (QuadTreeNode.quadTL c2B) (0 + 1) [c2Path, c2t0, c2t1, c2t2, c2t3, c2t4])
      (QuadTreeNode.leaf (QuadTreeNode.quadTR c2B) (0 + 1) [])
      (QuadTreeNode.leaf (QuadTreeNode.quadBL c2B) (0 + 1) [c2b0, c2b1, c2b2, c2b3, c2b4])
      (QuadTreeNode.leaf (QuadTreeNode.quadBR c2B) (0 + 1) []) := by
  have h0 : c2Index.root =
      (QuadTreeNode.insertF 6 (QuadTreeNode.insertF 6 (QuadTreeNode.insertF 6 (QuadTreeNode.insertF 6 (QuadTreeNode.insertF 6 (QuadTreeNode.insertF 6 (QuadTreeNode.insertF 6 (QuadTreeNode.insertF 6 (QuadTreeNode.insertF 6 (QuadTreeNode.insertF 6 (QuadTreeNode.insertF 6 (QuadTreeNode.leaf c2B 0 ([] : List IElem)) c2Path) c2t0) c2t1) c2t2) c2t3) c2t4) c2b0) c2b1) c2b2) c2b3) c2b4) := rfl
  rw [h0]
  rw [QuadTreeNode.insertF_leaf_no_split (by
    norm_num [c2B, c2Path, c2t0, c2t1, c2t2, c2t3, c2t4, c2b0, c2b1, c2b2, c2b3,
      c2b4, rectElem, mkPathElem, pathCenter, rectsIntersect,
      Shape.getBoundingBox, IElem.getBoundingBox, Rectangle.getBoundingBox,
      PathElem.getBoundingBox, ElementStyle.strokeWidthOr2,
      QuadTreeNode.quadTL, QuadTreeNode.quadTR, QuadTreeNode.quadBL,
      QuadTreeNode.quadBR, min_def, max_def]) (by decide)]
  rw [QuadTreeNode.insertF_leaf_no_split (by
    norm_num [c2B, c2Path, c2t0, c2t1, c2t2, c2t3, c2t4, c2b0, c2b1, c2b2, c2b3,
      c2b4, rectElem, mkPathElem, pathCenter, rectsIntersect,
      Shape.getBoundingBox, IElem.getBoundingBox, Rectangle.getBoundingBox,
      PathElem.getBoundingBox, ElementStyle.strokeWidthOr2,
      QuadTreeNode.quadTL, QuadTreeNode.quadTR, QuadTreeNode.quadBL,
      QuadTreeNode.quadBR, min_def, max_def]) (by decide)]
  rw [QuadTreeNode.insertF_leaf_no_split (by
    norm_num [c2B, c2Path, c2t0, c2t1, c2t2, c2t3, c2t4, c2b0, c2b1, c2b2, c2b3,
      c2b4, rectElem, mkPathElem, pathCenter, rectsIntersect,
      Shape.getBoundingBox, IElem.getBoundingBox, Rectangle.getBoundingBox,
      PathElem.getBoundingBox, ElementStyle.strokeWidthOr2,
      QuadTreeNode.quadTL, QuadTreeNode.quadTR, QuadTreeNode.quadBL,
      QuadTreeNode.quadBR, min_def, max_def]) (by decide)]
  rw [QuadTreeNode.insertF_leaf_no_split (by
    norm_num [c2B, c2Path, c2t0, c2t1, c2t2, c2t3, c2t4, c2b0, c2b1, c2b2, c2b3,
      c2b4, rectElem, mkPathElem, pathCenter, rectsIntersect,
      Shape.getBoundingBox, IElem.getBoundingBox, Rectangle.getBoundingBox,
      PathElem.getBoundingBox, ElementStyle.strokeWidthOr2,
      QuadTreeNode.quadTL, QuadTreeNode.quadTR, QuadTreeNode.quadBL,
      QuadTreeNode.quadBR, min_def, max_def]) (by decide)]
  rw [QuadTreeNode.insertF_leaf_no_split (by
    norm_num [c2B, c2Path, c2t0, c2t1, c2t2, c2t3, c2t4, c2b0, c2b1, c2b2, c2b3,
      c2b4, rectElem, mkPathElem, pathCenter, rectsIntersect,
      Shape.getBoundingBox, IElem.getBoundingBox, Rectangle.getBoundingBox,
      PathElem.getBoundingBox, ElementStyle.strokeWidthOr2,
      QuadTreeNode.quadTL, QuadTreeNode.quadTR, QuadTreeNode.quadBL,
      QuadTreeNode.quadBR, min_def, max_def]) (by decide)]
  rw [QuadTreeNode.insertF_leaf_no_split (by
    norm_num [c2B, c2Path, c2t0, c2t1, c2t2, c2t3, c2t4, c2b0, c2b1, c2b2, c2b3,
      c2b4, rectElem, mkPathElem, pathCenter, rectsIntersect,
      Shape.getBoundingBox, IElem.getBoundingBox, Rectangle.getBoundingBox,
      PathElem.getBoundingBox, ElementStyle.strokeWidthOr2,
      QuadTreeNode.quadTL, QuadTreeNode.quadTR, QuadTreeNode.quadBL,
      QuadTreeNode.quadBR, min_def, max_def]) (by decide)]
  rw [QuadTreeNode.insertF_leaf_no_split (by
    norm_num [c2B, c2Path, c2t0, c2t1, c2t2, c2t3, c2t4, c2b0, c2b1, c2b2, c2b3,
      c2b4, rectElem, mkPathElem, pathCenter, rectsIntersect,
      Shape.getBoundingBox, IElem.getBoundingBox, Rectangle.getBoundingBox,
      PathElem.getBoundingBox, ElementStyle.strokeWidthOr2,
      QuadTreeNode.quadTL, QuadTreeNode.quadTR, QuadTreeNode.quadBL,
      QuadTreeNode.quadBR, min_def, max_def]) (by decide)]
  rw [QuadTreeNode.insertF_leaf_no_split (by
    norm_num [c2B, c2Path, c2t0, c2t1, c2t2, c2t3, c2t4, c2b0, c2b1, c2b2, c2b3,
      c2b4, rectElem, mkPathElem, pathCenter, rectsIntersect,
      Shape.getBoundingBox, IElem.getBoundingBox, Rectangle.getBoundingBox,
      PathElem.getBoundingBox, ElementStyle.strokeWidthOr2,
      QuadTreeNode.quadTL, QuadTreeNode.quadTR, QuadTreeNode.quadBL,
      QuadTreeNode.quadBR, min_def, max_def]) (by decide)]
  rw [QuadTreeNode.insertF_leaf_no_split (by
    norm_num [c2B, c2Path, c2t0, c2t1, c2t2, c2t3, c2t4, c2b0, c2b1, c2b2, c2b3,
      c2b4, rectElem, mkPathElem, pathCenter, rectsIntersect,
      Shape.getBoundingBox, IElem.getBoundingBox, Rectangle.getBoundingBox,
      PathElem.getBoundingBox, ElementStyle.strokeWidthOr2,
      QuadTreeNode.quadTL, QuadTreeNode.quadTR, QuadTreeNode.quadBL,
      QuadTreeNode.quadBR, min_def, max_def]) (by decide)]
  rw [QuadTreeNode.insertF_leaf_no_split (by
    norm_num [c2B, c2Path, c2t0, c2t1, c2t2, c2t3, c2t4, c2b0, c2b1, c2b2, c2b3,
      c2b4, rectElem, mkPathElem, pathCenter, rectsIntersect,
      Shape.getBoundingBox, IElem.getBoundingBox, Rectangle.getBoundingBox,
      PathElem.getBoundingBox, ElementStyle.strokeWidthOr2,
      QuadTreeNode.quadTL, QuadTreeNode.quadTR, QuadTreeNode.quadBL,
      QuadTreeNode.quadBR, min_def, max_def]) (by decide)]
  simp only [List.nil_append, List.cons_append]
  rw [QuadTreeNode.insertF_leaf_split (by
    norm_num [c2B, c2Path, c2t0, c2t1, c2t2, c2t3, c2t4, c2b0, c2b1, c2b2, c2b3,
      c2b4, rectElem, mkPathElem, pathCenter, rectsIntersect,
      Shape.getBoundingBox, IElem.getBoundingBox, Rectangle.getBoundingBox,
      PathElem.getBoundingBox, ElementStyle.strokeWidthOr2,
      QuadTreeNode.quadTL, QuadTreeNode.quadTR, QuadTreeNode.quadBL,
      QuadTreeNode.quadBR, min_def, max_def]) (by decide), QuadTreeNode.foldl_insert_components]
  dsimp only [QuadTreeNode.split]
  simp only [List.cons_append, List.nil_append]
  rw [c2foldTL, c2foldTR, c2foldBL, c2foldBR]


theorem c2qpTL : QuadTreeNode.queryPoint
    (QuadTreeNode.leaf (QuadTreeNode.quadTL c2B) (0 + 1) [c2Path, c2t0, c2t1, c2t2, c2t3, c2t4]) c2p = none := by
  rw [QuadTreeNode.queryPoint, if_neg (by
    norm_num [c2B, c2p, pointInRect, QuadTreeNode.quadTL, QuadTreeNode.quadTR,
      QuadTreeNode.quadBL, QuadTreeNode.quadBR])]

theorem c2qpTR : QuadTreeNode.queryPoint
    (QuadTreeNode.leaf (QuadTreeNode.quadTR c2B) (0 + 1) ([] : List IElem))
    c2p = none := by
  rw [QuadTreeNode.queryPoint, if_pos (by
    norm_num [c2B, c2p, pointInRect, QuadTreeNode.quadTL, QuadTreeNode.quadTR,
      QuadTreeNode.quadBL, QuadTreeNode.quadBR])]
  rfl

theorem c2qpBL : QuadTreeNode.queryPoint
    (QuadTreeNode.leaf (QuadTreeNode.quadBL c2B) (0 + 1) [c2b0, c2b1, c2b2, c2b3, c2b4]) c2p = none := by
  rw [QuadTreeNode.queryPoint, if_neg (by
    norm_num [c2B, c2p, pointInRect, QuadTreeNode.quadTL, QuadTreeNode.quadTR,
      QuadTreeNode.quadBL, QuadTreeNode.quadBR])]

theorem c2qpBR : QuadTreeNode.queryPoint
    (QuadTreeNode.leaf (QuadTreeNode.quadBR c2B) (0 + 1) ([] : List IElem))
    c2p = none := by
  rw [QuadTreeNode.queryPoint, if_neg (by
    norm_num [c2B, c2p, pointInRect, QuadTreeNode.quadTL, QuadTreeNode.quadTR,
      QuadTreeNode.quadBL, QuadTreeNode.quadBR])]

/-- C2 counterexample: all eleven shapes have bounds inside the root, the
path's precise hit test contains the probe point (its hit tolerance
`2 * strokeWidth` reaches beyond its bounding box, which is only padded by
`strokeWidth / 2`), the probe point lies inside the root bounds — yet
`queryPoint` returns `none`, because the point probes the (empty) TR child
while the path was stored only in the TL child. -/
theorem C2_counterexample :
    (∀ e ∈ c2S, rectsIntersect (Shape.getBoundingBox e) c2B = true) ∧
    IElem.containsPoint c2Path c2p = true ∧ c2Path ∈ c2S ∧
    pointInRect c2p c2B = true ∧
    c2Index.queryPoint c2p = none := by
  refine ⟨?_, ?_, ?_, ?_, ?_⟩
  · intro e he
    fin_cases he <;> norm_num [c2B, c2Path, c2t0, c2t1, c2t2, c2t3, c2t4, c2b0, c2b1, c2b2, c2b3,
      c2b4, rectElem, mkPathElem, pathCenter, rectsIntersect,
      Shape.getBoundingBox, IElem.getBoundingBox, Rectangle.getBoundingBox,
      PathElem.getBoundingBox, ElementStyle.strokeWidthOr2,
      QuadTreeNode.quadTL, QuadTreeNode.quadTR, QuadTreeNode.quadBL,
      QuadTreeNode.quadBR, min_def, max_def]
  · norm_num [c2Path, c2p, mkPathElem, pathCenter, IElem.containsPoint,
      PathElem.containsPoint, segDistLE, pointToLineDistanceSq,
      ElementStyle.strokeWidthOr2, List.any, List.zip, List.zipWith]
  · simp [c2S]
  · norm_num [c2p, c2B, pointInRect]
  · rw [SpatialIndex.queryPoint_def, c2root, QuadTreeNode.queryPoint,
      if_pos (by norm_num [c2B, c2p, pointInRect, QuadTreeNode.quadTL, QuadTreeNode.quadTR,
      QuadTreeNode.quadBL, QuadTreeNode.quadBR])]
    simp only [c2qpTL, c2qpTR, c2qpBL, c2qpBR]

/-- C2 (amended): `queryPoint` returns at most one shape — the most
recently inserted shape whose precise hit test contains the point —
provided the point lies inside the root bounds and every indexed shape's
hit test only succeeds at points inside its own bounding box (rectangles
satisfy this; paths need not, as their hit tolerance exceeds their
bounding-box padding). -/
theorem C2_queryPoint_topmost {α : Type} [Shape α] [DecidableEq α]
    (b : BoundingBox) (S : List α) (p : Point)
    (hbw : 0 ≤ b.width) (hbh : 0 ≤ b.height)
    (hhit : ∀ x ∈ S, Shape.containsPoint x p = true →
      pointInRect p (Shape.getBoundingBox x) = true)
    (hp : pointInRect p b = true) :
    ((SpatialIndex.create b).insertAll S).queryPoint p =
      (S.filter (fun x => Shape.containsPoint x p)).getLast? := by
  have hwf := SpatialIndex.WF_insertAll S
    (@SpatialIndex.WF_create α _ _ b hbw hbh)
  rw [List.nil_append] at hwf
  have hb : ((SpatialIndex.create b).insertAll S).root.bounds = b := by
    rw [SpatialIndex.root_bounds_insertAll]
    rfl
  rw [SpatialIndex.queryPoint_def]
  exact QuadTreeNode.queryPoint_spec hwf.1 hwf.2 hhit (by rw [hb]; exact hp)

/-- Witness for C2 at the spec's A-then-B-then-C scenario: three stacked
rectangles all containing the probe point; the last one wins. -/
theorem C2_queryPoint_topmost_witness :
    ((SpatialIndex.create wBounds).insertAll
        [rectElem "A" 0 0 10 10, rectElem "B" 0 0 10 10,
          rectElem "C" 0 0 10 10]).queryPoint ⟨5, 5⟩ =
      ([rectElem "A" 0 0 10 10, rectElem "B" 0 0 10 10,
          rectElem "C" 0 0 10 10].filter
        (fun x => Shape.containsPoint x ⟨5, 5⟩)).getLast? :=
  C2_queryPoint_topmost wBounds _ _ (by norm_num [wBounds]) (by norm_num [wBounds])
    (by
      intro x hx
      fin_cases hx <;>
        norm_num [rectElem, Shape.containsPoint, IElem.containsPoint,
          Rectangle.containsPoint, pointInRect, Shape.getBoundingBox,
          IElem.getBoundingBox, Rectangle.getBoundingBox])
    (by norm_num [wBounds, pointInRect])


/-! ### Gesture-level lemmas for the interaction claims -/

namespace InteractionManager

theorem run_append (m : InteractionManager) (l1 l2 : List IMInput) :
    run m (l1 ++ l2) =
      ((run (run m l1).1 l2).1, (run m l1).2 ++ (run (run m l1).1 l2).2) := by
  induction l1 generalizing m with
  | nil => simp [run]
  | cons i l ih => simp [run, ih]

theorem handleMouseDown_pen (m : InteractionManager)
    (h : m.mode = InteractionMode.pen) (x y : ℚ) :
    m.handleMouseDown x y =
      ({ m with
          startPoint := some (m.screenToCanvas x y)
          currentPoint := some (m.screenToCanvas x y)
          isActive := true
          currentPathPoints := [m.screenToCanvas x y] },
       [.pathDrawing [m.screenToCanvas x y]]) := by
  simp [handleMouseDown, h]

theorem handleMouseMove_pen (m : InteractionManager)
    (h : m.mode = InteractionMode.pen) (ha : m.isActive = true) (x y : ℚ) :
    m.handleMouseMove x y =
      ({ m with
          currentPoint := some (m.screenToCanvas x y)
          currentPathPoints := m.currentPathPoints ++ [m.screenToCanvas x y] },
       [.pathDrawing (m.currentPathPoints ++ [m.screenToCanvas x y])]) := by
  simp [handleMouseMove, h, ha]

theorem handleMouseUp_pen_long (m : InteractionManager)
    (h : m.mode = InteractionMode.pen) (ha : m.isActive = true)
    (hlen : 1 < m.currentPathPoints.length) (x y : ℚ) :
    m.handleMouseUp x y =
      ({ m with
          currentPathPoints := []
          isActive := false
          draggedElement := none
          dragOffset := none },
       [.pathComplete m.currentPathPoints]) := by
  simp [handleMouseUp, h, ha, hlen]

theorem handleMouseUp_pen_short (m : InteractionManager)
    (h : m.mode = InteractionMode.pen) (ha : m.isActive = true)
    (hlen : ¬ 1 < m.currentPathPoints.length) (x y : ℚ) :
    m.handleMouseUp x y =
      ({ m with
          isActive := false
          draggedElement := none
          dragOffset := none },
       ([] : List IMEvent)) := by
  simp [handleMouseUp, h, ha, hlen]

/-- A run of PEN-mode pointer-moves: the mode, activity and transform are
preserved, each move appends its canvas point to the freehand sequence, and
no path-complete notification fires. -/
theorem c6run_moves (ms : List (ℚ × ℚ)) :
    ∀ m : InteractionManager, m.mode = InteractionMode.pen → m.isActive = true →
    (run m (ms.map (fun q => IMInput.mouseMove q.1 q.2))).1.mode =
        InteractionMode.pen ∧
    (run m (ms.map (fun q => IMInput.mouseMove q.1 q.2))).1.isActive = true ∧
    (run m (ms.map (fun q => IMInput.mouseMove q.1 q.2))).1.currentPathPoints =
      m.currentPathPoints ++ ms.map (fun q => m.screenToCanvas q.1 q.2) ∧
    (run m (ms.map (fun q => IMInput.mouseMove q.1 q.2))).2.filter
      IMEvent.isPathComplete = [] := by
  induction ms with
  | nil =>
    intro m h ha
    simp [run, h, ha]
  | cons q ms ih =>
    intro m h ha
    have hstep := handleMouseMove_pen m h ha q.1 q.2
    have ih' := ih { m with
        currentPoint := some (m.screenToCanvas q.1 q.2)
        currentPathPoints := m.currentPathPoints ++ [m.screenToCanvas q.1 q.2] }
      h ha
    obtain ⟨i1, i2, i3, i4⟩ := ih'
    rw [List.map_cons]
    simp only [run, step, hstep]
    refine ⟨i1, i2, ?_, ?_⟩
    · rw [i3]
      simp [screenToCanvas]
    · simp [List.filter_append, i4, IMEvent.isPathComplete]

end InteractionManager

/-- C6: in PEN mode, a pointer-down followed by `n` pointer-moves and a
pointer-up fires exactly one path-complete notification carrying the full
sequence of `n + 1` canvas-space points in order when `n ≥ 1`, and none at
all when the gesture contains no move (single-point sequence). -/
theorem C6_pen_path_complete (m : InteractionManager)
    (hmode : m.mode = InteractionMode.pen) (x0 y0 xu yu : ℚ)
    (ms : List (ℚ × ℚ)) :
    (m.run ([InteractionManager.IMInput.mouseDown x0 y0] ++
        ms.map (fun q => InteractionManager.IMInput.mouseMove q.1 q.2) ++
        [InteractionManager.IMInput.mouseUp xu yu])).2.filter IMEvent.isPathComplete =
      if ms = [] then []
      else [IMEvent.pathComplete
        (m.screenToCanvas x0 y0 :: ms.map (fun q => m.screenToCanvas q.1 q.2))] := by
  have hd := InteractionManager.handleMouseDown_pen m hmode x0 y0
  rw [List.append_assoc, List.singleton_append]
  simp only [InteractionManager.run, InteractionManager.step, hd]
  rw [InteractionManager.run_append]
  obtain ⟨j1, j2, j3, j4⟩ := InteractionManager.c6run_moves ms
    { m with
        startPoint := some (m.screenToCanvas x0 y0)
        currentPoint := some (m.screenToCanvas x0 y0)
        isActive := true
        currentPathPoints := [m.screenToCanvas x0 y0] }
    hmode rfl
  by_cases hms : ms = []
  · subst hms
    simp only [List.map_nil, InteractionManager.run, InteractionManager.step] at j1 j2 j3 j4 ⊢
    rw [InteractionManager.handleMouseUp_pen_short
      { m with
          startPoint := some (m.screenToCanvas x0 y0)
          currentPoint := some (m.screenToCanvas x0 y0)
          isActive := true
          currentPathPoints := [m.screenToCanvas x0 y0] }
      hmode rfl (by simp) xu yu]
    simp [IMEvent.isPathComplete]
  · rw [if_neg hms]
    have hlen : 1 < ((InteractionManager.run
        { m with
            startPoint := some (m.screenToCanvas x0 y0)
            currentPoint := some (m.screenToCanvas x0 y0)
            isActive := true
            currentPathPoints := [m.screenToCanvas x0 y0] }
        (ms.map (fun q => InteractionManager.IMInput.mouseMove q.1 q.2))).1).currentPathPoints.length := by
      rw [j3]
      have : 0 < ms.length := List.length_pos.2 hms
      simp
      omega
    simp only [InteractionManager.run, InteractionManager.step]
    rw [InteractionManager.handleMouseUp_pen_long _ j1 j2 hlen xu yu]
    simp only [List.filter_append, j4, List.filter_cons, List.filter_nil,
      IMEvent.isPathComplete]
    rw [j3]
    simp [InteractionManager.screenToCanvas]

/-- Fixture for the interaction claims: a manager over the small universe
with the identity transform, switched to PEN mode. -/
def c6M : InteractionManager :=
  ((InteractionManager.create (SpatialIndex.create wBounds) ⟨1, 1, 0, 0⟩).setMode
    InteractionMode.pen).1

def c6Moves : List (ℚ × ℚ) := [(10, 0), (10, 10)]

/-- Witness for C6 at the spec's down–move–move–up scenario. -/
theorem C6_pen_path_complete_witness :
    (c6M.run ([InteractionManager.IMInput.mouseDown 0 0] ++
        c6Moves.map (fun q => InteractionManager.IMInput.mouseMove q.1 q.2) ++
        [InteractionManager.IMInput.mouseUp 10 10])).2.filter IMEvent.isPathComplete =
      if c6Moves = [] then []
      else [IMEvent.pathComplete
        (c6M.screenToCanvas 0 0 ::
          c6Moves.map (fun q => c6M.screenToCanvas q.1 q.2))] :=
  C6_pen_path_complete c6M rfl 0 0 10 10 c6Moves

/-! ### C7: gesture state across pointer-up and mode switches -/

def c7M : InteractionManager :=
  InteractionManager.create (SpatialIndex.create wBounds) ⟨1, 1, 0, 0⟩

/-- C7 counterexample: `setMode` does not reset the gesture state — after a
PEN pointer-down, switching to SELECT leaves the manager active — and a
pointer-up after a single-point PEN gesture does not clear the one-point
freehand sequence. -/
theorem C7_counterexample :
    (c7M.run [InteractionManager.IMInput.setMode InteractionMode.pen,
      InteractionManager.IMInput.mouseDown 0 0,
      InteractionManager.IMInput.setMode InteractionMode.select]).1.isActive
        = true ∧
    (c7M.run [InteractionManager.IMInput.setMode InteractionMode.pen,
      InteractionManager.IMInput.mouseDown 0 0,
      InteractionManager.IMInput.mouseUp 0 0]).1.currentPathPoints = [⟨0, 0⟩] := by
  constructor
  · norm_num [c7M, InteractionManager.create, InteractionManager.run,
      InteractionManager.step, InteractionManager.setMode,
      InteractionManager.clearSelection, InteractionManager.handleMouseDown,
      InteractionManager.handleMouseUp, InteractionManager.screenToCanvas,
      applyInverseTransform]
  · norm_num [c7M, InteractionManager.create, InteractionManager.run,
      InteractionManager.step, InteractionManager.setMode,
      InteractionManager.clearSelection, InteractionManager.handleMouseDown,
      InteractionManager.handleMouseUp, InteractionManager.screenToCanvas,
      applyInverseTransform]
    rw [if_neg (by decide)]

/-- C7 (amended): pointer-up always deactivates the gesture and drops the
drag references, and clears the freehand sequence only for a PEN gesture
with more than one point; a mode switch sets both mode fields and clears
the selection (nulling the slot and clearing the shape's selected flag),
but leaves the active flag, drag references and freehand sequence
untouched. -/
theorem C7_gesture_state_reset (m : InteractionManager) (x y : ℚ)
    (md : InteractionMode) (h : m.isActive = true) :
    (m.handleMouseUp x y).1.isActive = false ∧
    (m.handleMouseUp x y).1.draggedElement = none ∧
    (m.handleMouseUp x y).1.dragOffset = none ∧
    ((m.mode = InteractionMode.pen ∧ 1 < m.currentPathPoints.length) →
      (m.handleMouseUp x y).1.currentPathPoints = []) ∧
    (m.setMode md).1.mode = md ∧
    (m.setMode md).1.stateMode = md ∧
    (m.setMode md).1.selectedElement = none ∧
    (∀ el, m.selectedElement = some el →
      (m.setMode md).2 = [IMEvent.setSelectedFlag el false,
        IMEvent.elementSelected none]) ∧
    (m.setMode md).1.isActive = m.isActive ∧
    (m.setMode md).1.draggedElement = m.draggedElement ∧
    (m.setMode md).1.dragOffset = m.dragOffset ∧
    (m.setMode md).1.currentPathPoints = m.currentPathPoints := by
  refine ⟨?_, ?_, ?_, ?_, ?_, ?_, ?_, ?_, ?_, ?_, ?_, ?_⟩
  · rw [InteractionManager.handleMouseUp, if_neg (by simp [h])]
  · rw [InteractionManager.handleMouseUp, if_neg (by simp [h])]
  · rw [InteractionManager.handleMouseUp, if_neg (by simp [h])]
  · intro hpen
    rw [InteractionManager.handleMouseUp, if_neg (by simp [h])]
    simp only []
    rw [if_pos hpen]
  · rfl
  · rfl
  · rfl
  · intro el hel
    simp [InteractionManager.setMode, InteractionManager.clearSelection, hel]
  · rfl
  · rfl
  · rfl
  · rfl

/-- A concrete active manager with a selection, a drag and a two-point
freehand sequence in flight. -/
def c7W : InteractionManager :=
  { c7M with
      mode := InteractionMode.pen
      stateMode := InteractionMode.pen
      isActive := true
      selectedElement := some wElemA
      draggedElement := some wElemA
      dragOffset := some ⟨0, 0⟩
      currentPathPoints := [⟨0, 0⟩, ⟨1, 1⟩] }

/-- Witness for C7 at a concrete active manager. -/
theorem C7_gesture_state_reset_witness :
    (c7W.handleMouseUp 0 0).1.isActive = false ∧
    (c7W.handleMouseUp 0 0).1.draggedElement = none ∧
    (c7W.handleMouseUp 0 0).1.dragOffset = none ∧
    ((c7W.mode = InteractionMode.pen ∧ 1 < c7W.currentPathPoints.length) →
      (c7W.handleMouseUp 0 0).1.currentPathPoints = []) ∧
    (c7W.setMode InteractionMode.select).1.mode = InteractionMode.select ∧
    (c7W.setMode InteractionMode.select).1.stateMode = InteractionMode.select ∧
    (c7W.setMode InteractionMode.select).1.selectedElement = none ∧
    (∀ el, c7W.selectedElement = some el →
      (c7W.setMode InteractionMode.select).2 = [IMEvent.setSelectedFlag el false,
        IMEvent.elementSelected none]) ∧
    (c7W.setMode InteractionMode.select).1.isActive = c7W.isActive ∧
    (c7W.setMode InteractionMode.select).1.draggedElement = c7W.draggedElement ∧
    (c7W.setMode InteractionMode.select).1.dragOffset = c7W.dragOffset ∧
    (c7W.setMode InteractionMode.select).1.currentPathPoints =
      c7W.currentPathPoints :=
  C7_gesture_state_reset c7W 0 0 InteractionMode.select rfl


/-- C3 counterexample: the boolean exists only on `QuadTreeNode.remove`;
`SpatialIndex.remove` is `void`, so its result is the same whether a
removal occurred (the indexed rectangle) or not (an unknown rectangle) —
the caller cannot observe the reported boolean. -/
theorem C3_counterexample :
    (wSi.root.remove wElemA).2 = true ∧
    (wSi.root.remove (rectElem "z" 50 50 1 1)).2 = false ∧
    SpatialIndex.removeReturn wSi wElemA =
      SpatialIndex.removeReturn wSi (rectElem "z" 50 50 1 1) := by
  have h1 : wSi.root =
      QuadTreeNode.insertF 6 (QuadTreeNode.leaf wBounds 0 []) wElemA := rfl
  have h2 : wSi.root = QuadTreeNode.leaf wBounds 0 ([] ++ [wElemA]) := by
    rw [h1, QuadTreeNode.insertF_leaf_no_split (by
      norm_num [wBounds, wElemA, rectElem, rectsIntersect, Shape.getBoundingBox,
        IElem.getBoundingBox, Rectangle.getBoundingBox]) (by decide)]
  refine ⟨?_, ?_, rfl⟩
  · rw [h2, QuadTreeNode.remove, if_pos (by
      norm_num [wBounds, wElemA, rectElem, rectsIntersect, Shape.getBoundingBox,
        IElem.getBoundingBox, Rectangle.getBoundingBox]), if_pos (by simp)]
  · rw [h2, QuadTreeNode.remove, if_pos (by
      norm_num [wBounds, rectElem, rectsIntersect, Shape.getBoundingBox,
        IElem.getBoundingBox, Rectangle.getBoundingBox]), if_neg (by
      norm_num [wElemA, rectElem])]

end MyCanvas
